import Mathlib

/-!
# Verification of the shapelet ingestion pipeline

A shallow embedding of the ingestion pipeline of the `J_Allen_Air_Pollutant`
repository (files `main.py`, `helpers/parser.py`, `helpers/records.py`,
`helpers/validator.py`, `helpers/db.py`), together with theorems settling the
specification claims about it.

Modelling conventions:

* Python's dynamically typed values are embedded as the inductive `PyVal`;
  Python floats are modelled as rationals (`ℚ`) — every check the pipeline
  performs on floats is an order comparison or an equality, which the
  rational model reflects exactly.
* Python dicts holding records are association lists `List (String × PyVal)`
  with first-match lookup (Python dict keys are unique, so this is faithful).
* Exceptions are modelled with `Except Err`; `KeyError` on a missing record
  field becomes `Err.missingField`, `TypeError`/`ValueError` from a coercion
  become `Err.typeCoercion`/`Err.valueError`, and the `IndexError` from
  `list(data.keys())[0]` on an empty container becomes `Err.indexError`.
* String renderings of numbers (`str(float)`, `json.dumps`) are modelled by a
  simple total rendering function; no claim depends on the exact digits.
-/

namespace AirPollutant

/-- `datetime.date`: a calendar date.  Python orders dates lexicographically
by (year, month, day). -/
structure PyDate where
  year : Int
  month : Int
  day : Int
deriving DecidableEq, Repr

/-- Python's `<` on `datetime.date` (lexicographic). -/
def PyDate.ltb (a b : PyDate) : Bool :=
  a.year < b.year ||
    (a.year == b.year &&
      (a.month < b.month || (a.month == b.month && a.day < b.day)))

/-- Dynamically typed Python values, as they occur in the loaded pickle
containers and the flattened records.  `vNpInt`/`vNpFloat`/`vNdarray` stand
for numpy scalars and arrays (`np.integer` is not a Python `int`, `np.float64`
is a subclass of Python `float`, `datetime.datetime` is a subclass of
`datetime.date`). -/
inductive PyVal where
  | vNone
  | vStr (s : String)
  | vInt (n : Int)
  | vFloat (q : ℚ)
  | vDate (d : PyDate)
  | vDatetime (d : PyDate)
  | vList (xs : List PyVal)
  | vNpInt (n : Int)
  | vNpFloat (q : ℚ)
  | vNdarray (xs : List ℚ)

/-- A Python dict with string keys: an association list with first-match
lookup. -/
abbrev PyDict := List (String × PyVal)

/-- Dict lookup (`raw.get(k)` / `k in raw`). -/
def pyLookup (d : PyDict) (k : String) : Option PyVal :=
  match d with
  | [] => none
  | (k', v) :: rest => if k' = k then some v else pyLookup rest k

/-- Error taxonomy of the pipeline (spec §7): `missingField` is a `KeyError`
on a record field (MissingField), `typeCoercion` a `TypeError` and
`valueError` a `ValueError` during coercion (TypeCoercionError), `indexError`
the `IndexError` raised by `list(data.keys())[0]` on an empty container. -/
inductive Err where
  | missingField (field : String)
  | typeCoercion (msg : String)
  | valueError (msg : String)
  | indexError
deriving DecidableEq, Repr

/-- A simple total rendering of a rational, standing in for Python's
`str(float)`.  No claim depends on the exact digits produced. -/
def ratRepr (q : ℚ) : String :=
  if q.den = 1 then toString q.num else toString q.num ++ "/" ++ toString q.den

/-- Zero-padded rendering of a date component. -/
def pad2 (n : Int) : String :=
  if 0 ≤ n ∧ n < 10 then "0" ++ toString n else toString n

/-- Zero-padded rendering of a year. -/
def pad4 (n : Int) : String :=
  if 0 ≤ n ∧ n < 10 then "000" ++ toString n
  else if 0 ≤ n ∧ n < 100 then "00" ++ toString n
  else if 0 ≤ n ∧ n < 1000 then "0" ++ toString n
  else toString n

/-- `datetime.date.isoformat()`: `YYYY-MM-DD`. -/
def PyDate.isoformat (d : PyDate) : String :=
  pad4 d.year ++ "-" ++ pad2 d.month ++ "-" ++ pad2 d.day

/-- `str(value)` for the values the pipeline renders.  Dates render in ISO
format; the precise renderings of the non-string cases are a modelling
choice no claim depends on. -/
def pyStr : PyVal → String
  | .vNone => "None"
  | .vStr s => s
  | .vInt n => toString n
  | .vFloat q => ratRepr q
  | .vDate d => d.isoformat
  | .vDatetime d => d.isoformat
  | .vList _ => "[...]"
  | .vNpInt n => toString n
  | .vNpFloat q => ratRepr q
  | .vNdarray _ => "[...]"

/-- `type(value).__name__`, used in validator error messages. -/
def typeName : PyVal → String
  | .vNone => "NoneType"
  | .vStr _ => "str"
  | .vInt _ => "int"
  | .vFloat _ => "float"
  | .vDate _ => "date"
  | .vDatetime _ => "datetime"
  | .vList _ => "list"
  | .vNpInt _ => "int64"
  | .vNpFloat _ => "float64"
  | .vNdarray _ => "ndarray"

/-- Truncation toward zero: Python's `int(float)`. -/
def ratTrunc (q : ℚ) : Int := Int.tdiv q.num (q.den : Int)

/-- Decimal digits to a number. -/
def digitsToNat (cs : List Char) : Nat :=
  cs.foldl (fun a c => a * 10 + (c.toNat - '0'.toNat)) 0

/-- Python `int(str)` on a stripped literal: optional sign then digits.
(Underscore separators and other exotic forms are not modelled; no claim
exercises them.) -/
def parseIntLit (s : String) : Option Int :=
  let cs := (s.data.dropWhile Char.isWhitespace).reverse.dropWhile Char.isWhitespace |>.reverse
  match cs with
  | '-' :: rest => if rest ≠ [] ∧ rest.all Char.isDigit then some (-(digitsToNat rest : Int)) else none
  | '+' :: rest => if rest ≠ [] ∧ rest.all Char.isDigit then some (digitsToNat rest : Int) else none
  | rest => if rest ≠ [] ∧ rest.all Char.isDigit then some (digitsToNat rest : Int) else none

/-- Python `float(str)` on a stripped literal: optional sign, integer part,
optional fractional part.  (Exponents and special forms are not modelled; no
claim exercises them.) -/
def parseFloatLit (s : String) : Option ℚ :=
  let cs := (s.data.dropWhile Char.isWhitespace).reverse.dropWhile Char.isWhitespace |>.reverse
  let core : List Char → Option ℚ := fun ds =>
    match ds.span Char.isDigit with
    | (intPart, []) =>
        if intPart ≠ [] then some ((digitsToNat intPart : ℚ)) else none
    | (intPart, '.' :: fracPart) =>
        if fracPart.all Char.isDigit ∧ (intPart ≠ [] ∨ fracPart ≠ []) then
          some ((digitsToNat intPart : ℚ) +
            (digitsToNat fracPart : ℚ) / ((10 : ℚ) ^ fracPart.length))
        else none
    | _ => none
  match cs with
  | '-' :: rest => (core rest).map (fun q => -q)
  | '+' :: rest => core rest
  | rest => core rest

/-- Python `int(value)` (`helpers/records.py` `_to_int`, and the bare `int()`
calls in `_flatten_shapelet`; both branches of `_to_int` call `int()`). -/
def pyIntOf : PyVal → Except Err Int
  | .vInt n => .ok n
  | .vNpInt n => .ok n
  | .vFloat q => .ok (ratTrunc q)
  | .vNpFloat q => .ok (ratTrunc q)
  | .vStr s =>
      match parseIntLit s with
      | some n => .ok n
      | none => .error (.valueError ("invalid literal for int(): " ++ s))
  | v => .error (.typeCoercion ("int() argument: " ++ typeName v))

/-- Python `float(value)` (`helpers/records.py` `_to_float`; both branches
call `float()`). -/
def pyFloatOf : PyVal → Except Err ℚ
  | .vFloat q => .ok q
  | .vNpFloat q => .ok q
  | .vInt n => .ok (n : ℚ)
  | .vNpInt n => .ok (n : ℚ)
  | .vStr s =>
      match parseFloatLit s with
      | some q => .ok q
      | none => .error (.valueError ("could not convert string to float: " ++ s))
  | v => .error (.typeCoercion ("float() argument: " ++ typeName v))

/-- `helpers/records.py` `_to_date`: accept `datetime.datetime` (keeping only
the date) or `datetime.date`, otherwise `TypeError`. -/
def toDateOf : PyVal → Except Err PyDate
  | .vDatetime d => .ok d
  | .vDate d => .ok d
  | v => .error (.typeCoercion ("Cannot convert " ++ typeName v ++ " to date"))

/-- `helpers/records.py` `_ndarray_to_list`: `ndarray.tolist()` yields plain
floats; `list(arr)` on a Python list keeps the elements as they are; `list`
of a string yields its one-character strings; other values raise
`TypeError`. -/
def ndarrayToList : PyVal → Except Err (List PyVal)
  | .vNdarray qs => .ok (qs.map PyVal.vFloat)
  | .vList xs => .ok xs
  | .vStr s => .ok (s.data.map (fun c => PyVal.vStr (String.mk [c])))
  | v => .error (.typeCoercion (typeName v ++ " object is not iterable"))

/-! ## Key/Name Parser (`helpers/parser.py`)

The two fixed regexes are embedded as explicit backtracking matchers with
Python `re` semantics: a lazy group (`+?`) tries candidate prefixes shortest
first, a greedy group (`+`) longest first, a greedy class-`+` followed by a
literal outside the class is deterministic (maximal run).  Character classes
are the ASCII reading of the patterns. -/

/-- `[A-Za-z ]` — the county character class. -/
def isAlphaSpace (c : Char) : Bool := c.isAlpha || c == ' '

/-- `\w` (ASCII model of Python's word characters). -/
def isWordChar (c : Char) : Bool := c.isAlphanum || c == '_'

/-- `.` in a Python regex: any character except a newline. -/
def isDotChar (c : Char) : Bool := c != '\n'

/-- All splits `cs = pre ++ suf` with `pre` nonempty, shortest prefix first —
the candidate order of a lazy (`+?`) group. -/
def splitsFrom (cs : List Char) : List (List Char × List Char) :=
  (List.range cs.length).map (fun i => (cs.take (i + 1), cs.drop (i + 1)))

/-- Drop an exact literal from the front of the input. -/
def stripLit : List Char → List Char → Option (List Char)
  | [], cs => some cs
  | l :: ls, c :: cs => if c = l then stripLit ls cs else none
  | _ :: _, [] => none

/-- Take exactly `n` leading digits (`\d{n}`). -/
def takeExactDigits (n : Nat) (cs : List Char) : Option (List Char × List Char) :=
  if (cs.take n).length = n ∧ (cs.take n).all Char.isDigit then
    some (cs.take n, cs.drop n)
  else none

/-- Result of `parse_filename`. -/
structure FileMeta where
  state : String
  county : String
  site_num : Nat
  year : Nat
  chunk : Nat
deriving DecidableEq, Repr

/-- The tail of the filename pattern after `{State}_{County}_`:
`\d+_shapelets\.pkl_\d{4}_\d{3}\.pkl$`.  The greedy `\d+` before the literal
`_` is the maximal digit run. -/
def matchFilenameTail (cs : List Char) : Option (Nat × Nat × Nat) :=
  match List.span Char.isDigit cs with
  | (sn, r1) =>
    if sn = [] then none else
    match stripLit "_shapelets.pkl_".data r1 with
    | none => none
    | some r2 =>
      match takeExactDigits 4 r2 with
      | none => none
      | some (y, r3) =>
        match r3 with
        | '_' :: r4 =>
          match takeExactDigits 3 r4 with
          | none => none
          | some (ch, r5) =>
            match stripLit ".pkl".data r5 with
            | some [] => some (digitsToNat sn, digitsToNat y, digitsToNat ch)
            | _ => none
        | _ => none

/-- The county-level candidate check of `parse_filename`: a lazy
`[A-Za-z ]+?` county, the literal `_`, then the deterministic tail. -/
def fnInner (st : List Char) (co : List Char × List Char) : Option FileMeta :=
  if co.1.all isAlphaSpace then
    match co.2 with
    | '_' :: rest3 =>
      (matchFilenameTail rest3).map (fun t =>
        { state := ⟨st⟩, county := ⟨co.1⟩,
          site_num := t.1, year := t.2.1, chunk := t.2.2 })
    | _ => none
  else none

/-- The state-level candidate check of `parse_filename`: a lazy `.+?`
state, the literal `_`, then the county search. -/
def fnOuter (x : List Char × List Char) : Option FileMeta :=
  if x.1.all isDotChar then
    match x.2 with
    | '_' :: rest1 => List.findSome? (fnInner x.1) (splitsFrom rest1)
    | _ => none
  else none

/-- `helpers/parser.py` `parse_filename`: match
`^(?P<state>.+?)_(?P<county>[A-Za-z ]+?)_(?P<site_num>\d+)_shapelets\.pkl_(?P<year>\d{4})_(?P<chunk>\d{3})\.pkl$`
and convert the numeric groups with `int()`.  `None` models the
`ValueError` (PatternMismatch) raised when the pattern does not match. -/
def parse_filename (name : String) : Option FileMeta :=
  List.findSome? fnOuter (splitsFrom name.data)

/-- Result of `parse_dataset_key`. -/
structure KeyMeta where
  state : String
  county : String
  site_num : Nat
  frequency : String
  parameter_code : String
  duration : String
  year : Nat
  agg_method : String
deriving DecidableEq, Repr

/-- One duration candidate of the dataset-key pattern: a `\w+` duration,
then `_`, exactly four digits of year, `_`, and a nonempty `.+` agg-method
running to the end. -/
def duStep (du : List Char × List Char) : Option (String × Nat × String) :=
  if du.1.all isWordChar then
    match du.2 with
    | '_' :: r =>
      match takeExactDigits 4 r with
      | some (y, '_' :: ag) =>
        if ag ≠ [] ∧ ag.all isDotChar then
          some (⟨du.1⟩, digitsToNat y, ⟨ag⟩)
        else none
      | _ => none
    | _ => none
  else none

/-- The duration group and what follows: `(?P<duration>\w+)` (greedy — try
the longest candidate first) then `_(?P<year>\d{4})_(?P<agg_method>.+)$`. -/
def matchDuration (cs : List Char) : Option (String × Nat × String) :=
  List.findSome? duStep (splitsFrom cs).reverse

/-- Stage three of the dataset-key tail: the greedy `\d+` parameter code,
`_`, then the duration search. -/
def matchKeyTail3 (sn fr r4 : List Char) :
    Option (Nat × String × String × String × Nat × String) :=
  match List.span Char.isDigit r4 with
  | (pc, r5) =>
    if pc = [] then none else
    match r5 with
    | '_' :: r6 =>
      (matchDuration r6).map (fun t =>
        (digitsToNat sn, ⟨fr⟩, ⟨pc⟩, t.1, t.2.1, t.2.2))
    | _ => none

/-- Stage two of the dataset-key tail: the greedy `[a-z]+` frequency and
the `_` after it. -/
def matchKeyTail2 (sn r2 : List Char) :
    Option (Nat × String × String × String × Nat × String) :=
  match List.span Char.isLower r2 with
  | (fr, r3) =>
    if fr = [] then none else
    match r3 with
    | '_' :: r4 => matchKeyTail3 sn fr r4
    | _ => none

/-- The tail of the dataset-key pattern after `{State}_{County}_`:
`\d+_[a-z]+_\d+_` then duration/year/agg.  Each class-`+` group before a
`_` literal outside its class is the maximal run. -/
def matchKeyTail (cs : List Char) :
    Option (Nat × String × String × String × Nat × String) :=
  match List.span Char.isDigit cs with
  | (sn, r1) =>
    if sn = [] then none else
    match r1 with
    | '_' :: r2 => matchKeyTail2 sn r2
    | _ => none

/-- The county-level candidate check of `parse_dataset_key`. -/
def dkInner (st : List Char) (co : List Char × List Char) : Option KeyMeta :=
  if co.1.all isAlphaSpace then
    match co.2 with
    | '_' :: rest3 =>
      (matchKeyTail rest3).map (fun t =>
        { state := ⟨st⟩, county := ⟨co.1⟩, site_num := t.1,
          frequency := t.2.1, parameter_code := t.2.2.1,
          duration := t.2.2.2.1, year := t.2.2.2.2.1,
          agg_method := t.2.2.2.2.2 })
    | _ => none
  else none

/-- The state-level candidate check of `parse_dataset_key`. -/
def dkOuter (x : List Char × List Char) : Option KeyMeta :=
  if x.1.all isDotChar then
    match x.2 with
    | '_' :: rest1 => List.findSome? (dkInner x.1) (splitsFrom rest1)
    | _ => none
  else none

/-- `helpers/parser.py` `parse_dataset_key`: match
`^(?P<state>.+?)_(?P<county>[A-Za-z ]+?)_(?P<site_num>\d+)_(?P<frequency>[a-z]+)_(?P<parameter_code>\d+)_(?P<duration>\w+)_(?P<year>\d{4})_(?P<agg_method>.+)$`. -/
def parse_dataset_key (key : String) : Option KeyMeta :=
  List.findSome? dkOuter (splitsFrom key.data)

/-- Python `str.split(sep)` for a one-character separator (always yields at
least one piece; splitting the empty string yields `[""]`). -/
def pySplit (sep : Char) : List Char → List (List Char)
  | [] => [[]]
  | c :: rest =>
    let r := pySplit sep rest
    if c = sep then [] :: r
    else
      match r with
      | [] => [[c]]
      | h :: t => (c :: h) :: t

/-- `pattern_type.split("_")`. -/
def splitUnderscore (s : String) : List String :=
  (pySplit '_' s.data).map String.mk

/-- `helpers/db.py` `_extract_param_code`: the first underscore-delimited
token of `pattern_type` that satisfies `str.isdigit` (nonempty, all digits),
else `None`. -/
def extract_param_code (pattern_type : String) : Option String :=
  List.find? (fun part => !part.isEmpty && part.data.all Char.isDigit)
    (splitUnderscore pattern_type)

/-! ## Record Normalizer (`helpers/records.py`) -/

/-- A flattened shapelet record, as built by `_flatten_shapelet`.  The dict
literal there always carries exactly these seventeen keys, so the record is
a structure; `ShapeletRecord.toDict` recovers the dynamic dict. -/
structure ShapeletRecord where
  dataset_key : String
  shapelet_id : Int
  source_file : Option String
  state : String
  county : String
  site_num : Int
  latitude : ℚ
  longitude : ℚ
  location : String
  year : Int
  start_date : PyDate
  end_date : PyDate
  length_days : Int
  pattern_type : String
  data_type : String
  quality : ℚ
  shapelet_values : List PyVal

/-- `raw[k]`: dict access raising `KeyError` (MissingField) when absent. -/
def getField (raw : PyDict) (k : String) : Except Err PyVal :=
  match pyLookup raw k with
  | some v => .ok v
  | none => .error (.missingField k)

/-- `helpers/records.py` `_flatten_shapelet`: build the flat record,
evaluating the fields in the order of the source dict literal, so the first
missing key or uncoercible value determines the raised error. -/
def flattenShapelet (dataset_key : String) (raw : PyDict)
    (source_file : Option String) : Except Err ShapeletRecord := do
  let sid ← getField raw "shapelet_id" >>= pyIntOf
  let stV ← getField raw "state"
  let coV ← getField raw "county"
  let sn ← getField raw "site_num" >>= pyIntOf
  let lat ← getField raw "latitude" >>= pyFloatOf
  let lon ← getField raw "longitude" >>= pyFloatOf
  let locV := (pyLookup raw "location").getD (.vStr "")
  let yr ← getField raw "year" >>= pyIntOf
  let sd ← getField raw "start_date" >>= toDateOf
  let ed ← getField raw "end_date" >>= toDateOf
  let ld ← getField raw "length_days" >>= pyIntOf
  let pt ← getField raw "pattern_type"
  let dt ← getField raw "data_type"
  let q ← getField raw "quality" >>= pyFloatOf
  let sv ← getField raw "shapelet" >>= ndarrayToList
  pure {
    dataset_key := dataset_key
    shapelet_id := sid
    source_file := source_file
    state := pyStr stV
    county := pyStr coV
    site_num := sn
    latitude := lat
    longitude := lon
    location := pyStr locV
    year := yr
    start_date := sd
    end_date := ed
    length_days := ld
    pattern_type := pyStr pt
    data_type := pyStr dt
    quality := q
    shapelet_values := sv }

/-- Flatten one dataset's shapelet list; the first raised error aborts the
whole enumeration (driving the generator through `list()` loses the already
yielded prefix). -/
def flattenList (dataset_key : String) (source_file : Option String) :
    List PyDict → Except Err (List ShapeletRecord)
  | [] => .ok []
  | raw :: rest => do
    let r ← flattenShapelet dataset_key raw source_file
    let rs ← flattenList dataset_key source_file rest
    .ok (r :: rs)

/-- A loaded pickle container: the top-level dict mapping dataset keys to
lists of shapelet dicts (insertion-ordered). -/
abbrev Container := List (String × List PyDict)

/-- `list(iter_records(data, source_file))` as driven by `main.run`: walk the
container and flatten every shapelet of every key; an error raised by
`_flatten_shapelet` propagates out of the enumeration. -/
def listIterRecords : Container → Option String → Except Err (List ShapeletRecord)
  | [], _ => .ok []
  | (k, shs) :: rest, sf => do
    let a ← flattenList k sf shs
    let b ← listIterRecords rest sf
    .ok (a ++ b)

/-- A nullable string as a `PyVal`. -/
def optStrVal : Option String → PyVal
  | none => .vNone
  | some s => .vStr s

/-- The flat record as the Python dict `_flatten_shapelet` returns, in the
order of the source dict literal. -/
def ShapeletRecord.toDict (r : ShapeletRecord) : PyDict :=
  [("dataset_key", .vStr r.dataset_key),
   ("shapelet_id", .vInt r.shapelet_id),
   ("source_file", optStrVal r.source_file),
   ("state", .vStr r.state),
   ("county", .vStr r.county),
   ("site_num", .vInt r.site_num),
   ("latitude", .vFloat r.latitude),
   ("longitude", .vFloat r.longitude),
   ("location", .vStr r.location),
   ("year", .vInt r.year),
   ("start_date", .vDate r.start_date),
   ("end_date", .vDate r.end_date),
   ("length_days", .vInt r.length_days),
   ("pattern_type", .vStr r.pattern_type),
   ("data_type", .vStr r.data_type),
   ("quality", .vFloat r.quality),
   ("shapelet_values", .vList r.shapelet_values)]

/-! ## Record Validator (`helpers/validator.py`) -/

/-- The declared types of `_SCHEMA`. -/
inductive PyType where
  | tStr | tInt | tFloat | tDate | tList | tStrOrNone
deriving DecidableEq, Repr

/-- `_SCHEMA`: (field_name, expected_type, required). -/
def SCHEMA : List (String × PyType × Bool) :=
  [("dataset_key", .tStr, true),
   ("shapelet_id", .tInt, true),
   ("state", .tStr, true),
   ("county", .tStr, true),
   ("site_num", .tInt, true),
   ("latitude", .tFloat, true),
   ("longitude", .tFloat, true),
   ("location", .tStr, false),
   ("year", .tInt, true),
   ("start_date", .tDate, true),
   ("end_date", .tDate, true),
   ("length_days", .tInt, true),
   ("pattern_type", .tStr, true),
   ("data_type", .tStr, true),
   ("quality", .tFloat, true),
   ("shapelet_values", .tList, true),
   ("source_file", .tStrOrNone, false)]

/-- Python `isinstance` against the schema types: `np.float64` is a subclass
of `float` and `datetime.datetime` of `datetime.date`; `np.integer` is not a
Python `int`. -/
def isinstanceOf (v : PyVal) (t : PyType) : Bool :=
  match t, v with
  | .tStr, .vStr _ => true
  | .tInt, .vInt _ => true
  | .tFloat, .vFloat _ => true
  | .tFloat, .vNpFloat _ => true
  | .tDate, .vDate _ => true
  | .tDate, .vDatetime _ => true
  | .tList, .vList _ => true
  | .tStrOrNone, .vStr _ => true
  | .tStrOrNone, .vNone => true
  | _, _ => false

/-- `_type_label`. -/
def typeLabel : PyType → String
  | .tStr => "str"
  | .tInt => "int"
  | .tFloat => "float"
  | .tDate => "date"
  | .tList => "list"
  | .tStrOrNone => "str | NoneType"

/-- `value is None`. -/
def isNoneVal : PyVal → Bool
  | .vNone => true
  | _ => false

/-- First loop of `validate_record`: missing required fields, in schema
order. -/
def missingFieldErrors (record : PyDict) : List String :=
  (SCHEMA.map (fun ft =>
    if ft.2.2 && (pyLookup record ft.1).isNone then
      ["missing required field: " ++ ft.1]
    else [])).flatten

/-- Second loop of `validate_record`: type conformance, in schema order.  A
present `None` is skipped for optional fields only (the loop binds the
`required` flag as `_` and tests `not _`). -/
def typeCheckErrors (record : PyDict) : List String :=
  (SCHEMA.map (fun ft =>
    match pyLookup record ft.1 with
    | none => []
    | some v =>
      if isNoneVal v && !ft.2.2 then []
      else if isinstanceOf v ft.2.1 then []
      else [ft.1 ++ ": expected " ++ typeLabel ft.2.1 ++ ", got " ++ typeName v])).flatten

/-- `isinstance(v, int)` guard of the domain checks. -/
def asIntVal : PyVal → Option Int
  | .vInt n => some n
  | _ => none

/-- `isinstance(v, float)` guard of the domain checks (`np.float64`
included; its `str` rendering agrees with the plain float's). -/
def asFloatVal : PyVal → Option ℚ
  | .vFloat q => some q
  | .vNpFloat q => some q
  | _ => none

/-- `isinstance(v, datetime.date)` guard (`datetime.datetime` is a
subclass; a mixed date/datetime comparison is modelled as the date
comparison). -/
def asDateVal : PyVal → Option PyDate
  | .vDate d => some d
  | .vDatetime d => some d
  | _ => none

/-- Domain check: `year ∈ [1900, 2100]`, when present as a Python `int`. -/
def yearDomainErrors (record : PyDict) : List String :=
  match (pyLookup record "year").bind asIntVal with
  | some y => if 1900 ≤ y ∧ y ≤ 2100 then [] else ["year out of range: " ++ toString y]
  | none => []

/-- Domain check: `length_days ≥ 1`, when present as a Python `int`. -/
def lengthDomainErrors (record : PyDict) : List String :=
  match (pyLookup record "length_days").bind asIntVal with
  | some n => if n < 1 then ["length_days must be >= 1, got " ++ toString n] else []
  | none => []

/-- Domain check: `latitude ∈ [-90.0, 90.0]`, when present as a float. -/
def latitudeDomainErrors (record : PyDict) : List String :=
  match (pyLookup record "latitude").bind asFloatVal with
  | some q => if -90 ≤ q ∧ q ≤ 90 then [] else ["latitude out of range: " ++ ratRepr q]
  | none => []

/-- Domain check: `longitude ∈ [-180.0, 180.0]`, when present as a float. -/
def longitudeDomainErrors (record : PyDict) : List String :=
  match (pyLookup record "longitude").bind asFloatVal with
  | some q => if -180 ≤ q ∧ q ≤ 180 then [] else ["longitude out of range: " ++ ratRepr q]
  | none => []

/-- Domain check: `end_date ≥ start_date`, when both dates are present. -/
def dateOrderDomainErrors (record : PyDict) : List String :=
  match (pyLookup record "start_date").bind asDateVal,
        (pyLookup record "end_date").bind asDateVal with
  | some sd, some ed => if ed.ltb sd then ["end_date is before start_date"] else []
  | _, _ => []

/-- Domain check: `shapelet_values` nonempty, when present as a list. -/
def valuesDomainErrors (record : PyDict) : List String :=
  match pyLookup record "shapelet_values" with
  | some (.vList xs) => if xs.length = 0 then ["shapelet_values is empty"] else []
  | _ => []

/-- Domain checks of `validate_record`, in source order, each evaluated only
when the field is present with the guarded runtime type. -/
def domainCheckErrors (record : PyDict) : List String :=
  yearDomainErrors record ++ lengthDomainErrors record ++
  latitudeDomainErrors record ++ longitudeDomainErrors record ++
  dateOrderDomainErrors record ++ valuesDomainErrors record

/-- `helpers/validator.py` `validate_record`: `(is_valid, errors)`; the three
phases accumulate without short-circuiting, and
`is_valid = (len(errors) == 0)`. -/
def validate_record (record : PyDict) : Bool × List String :=
  let errors :=
    missingFieldErrors record ++ typeCheckErrors record ++ domainCheckErrors record
  (errors.isEmpty, errors)

/-! ## Store Writer (`helpers/db.py`)

The three tables touched by `insert_shapelets` are modelled as lists of
rows in insertion order.  SQLite's `UNIQUE(dataset_key, shapelet_id,
source_file)` treats `NULL` as distinct from everything (including `NULL`),
so a row whose `source_file` is `NULL` never conflicts. -/

/-- A row of the `sites` table. -/
structure SiteRow where
  site_key : String
  state : String
  county : String
  site_num : Int
  latitude : ℚ
  longitude : ℚ
deriving DecidableEq, Repr

/-- A row of the `shapelets` table (the surrogate `id` is the list
position and is not modelled as a column). -/
structure ShapeletRow where
  dataset_key : String
  shapelet_id : Int
  site_key : String
  parameter_code : Option String
  year : Int
  start_date : String
  end_date : String
  length_days : Int
  pattern_type : String
  data_type : String
  quality : ℚ
  shapelet_values : String
  source_file : Option String
deriving DecidableEq, Repr

/-- The persistent store: the tables `insert_shapelets` touches. -/
structure Db where
  sites : List SiteRow
  pollutants : List String
  shapelets : List ShapeletRow
deriving DecidableEq, Repr

/-- `f"{state}_{county}_{site_num}"`. -/
def siteKeyOf (r : ShapeletRecord) : String :=
  r.state ++ "_" ++ r.county ++ "_" ++ toString r.site_num

/-- `helpers/db.py` `upsert_site`: insert by `site_key`, or overwrite
latitude/longitude on conflict.  Returns the updated store and the key. -/
def upsert_site (db : Db) (r : ShapeletRecord) : Db × String :=
  let sk := siteKeyOf r
  if db.sites.any (fun s => s.site_key == sk) then
    ({ db with sites := db.sites.map (fun s =>
        if s.site_key == sk then
          { s with latitude := r.latitude, longitude := r.longitude }
        else s) }, sk)
  else
    ({ db with sites := db.sites ++
        [⟨sk, r.state, r.county, r.site_num, r.latitude, r.longitude⟩] }, sk)

/-- `helpers/db.py` `upsert_pollutant`: early return on `None`, otherwise
`INSERT OR IGNORE` by parameter code. -/
def upsert_pollutant (db : Db) (parameter_code : Option String) : Db :=
  match parameter_code with
  | none => db
  | some c =>
    if db.pollutants.contains c then db
    else { db with pollutants := db.pollutants ++ [c] }

/-- `json.dumps` of the shapelet-value list, under the model's number
rendering. -/
def jsonDumpValues (xs : List PyVal) : String :=
  "[" ++ String.intercalate ", " (xs.map pyStr) ++ "]"

/-- The `db_rows` tuple built for one record inside `insert_shapelets`. -/
def shapeletRowOf (r : ShapeletRecord) : ShapeletRow :=
  { dataset_key := r.dataset_key
    shapelet_id := r.shapelet_id
    site_key := siteKeyOf r
    parameter_code := extract_param_code r.pattern_type
    year := r.year
    start_date := r.start_date.isoformat
    end_date := r.end_date.isoformat
    length_days := r.length_days
    pattern_type := r.pattern_type
    data_type := r.data_type
    quality := r.quality
    shapelet_values := jsonDumpValues r.shapelet_values
    source_file := r.source_file }

/-- The `UNIQUE(dataset_key, shapelet_id, source_file)` conflict test under
SQLite's `NULL` semantics: `NULL` `source_file` never conflicts. -/
def rowConflict (a b : ShapeletRow) : Bool :=
  a.dataset_key == b.dataset_key && a.shapelet_id == b.shapelet_id &&
    (match a.source_file, b.source_file with
     | some x, some y => x == y
     | _, _ => false)

/-- One `INSERT OR IGNORE` into `shapelets`: append unless a conflicting row
exists. -/
def insertIgnore (tbl : List ShapeletRow) (row : ShapeletRow) : List ShapeletRow :=
  if tbl.any (fun old => rowConflict row old) then tbl else tbl ++ [row]

/-- `executemany` of the batch insert: the rows inserted in order. -/
def insertRows (tbl : List ShapeletRow) (rows : List ShapeletRow) : List ShapeletRow :=
  rows.foldl insertIgnore tbl

/-- The loop state of `insert_shapelets`: the store plus the `sites_seen` /
`pollutants_seen` dedup sets (which persist across batches) and the running
`rows_inserted` counter. -/
structure InsertState where
  db : Db
  sitesSeen : List String
  pollutantsSeen : List String
  rowsInserted : Nat
deriving Repr

/-- First loop of a batch iteration: `upsert_site` for each record whose
site key is not yet in `sites_seen`. -/
def siteUpsertStep (s : InsertState) (rec : ShapeletRecord) : InsertState :=
  let sk := siteKeyOf rec
  if s.sitesSeen.contains sk then s
  else { s with db := (upsert_site s.db rec).1, sitesSeen := s.sitesSeen ++ [sk] }

/-- Second loop of a batch iteration: `upsert_pollutant` for each newly seen
code (`if param_code and param_code not in pollutants_seen`; `find?` never
returns the empty — falsy — string since `"".isdigit()` is false), and
append the record's `db_rows` tuple. -/
def pollutantRowStep (p : InsertState × List ShapeletRow) (rec : ShapeletRecord) :
    InsertState × List ShapeletRow :=
  let s := p.1
  let s' := match extract_param_code rec.pattern_type with
    | some c =>
      if s.pollutantsSeen.contains c then s
      else { s with db := upsert_pollutant s.db (some c),
                    pollutantsSeen := s.pollutantsSeen ++ [c] }
    | none => s
  (s', p.2 ++ [shapeletRowOf rec])

/-- One iteration of the batch loop of `insert_shapelets`: upsert the
chunk's sites (deduplicated via `sites_seen`), then build the `db_rows`
while upserting newly seen pollutants, then bulk `INSERT OR IGNORE`. -/
def processChunk (st : InsertState) (chunk : List ShapeletRecord) : InsertState :=
  let st1 := chunk.foldl siteUpsertStep st
  let st2 := chunk.foldl pollutantRowStep (st1, [])
  { st2.1 with
    db := { st2.1.db with shapelets := insertRows st2.1.db.shapelets st2.2 }
    rowsInserted := st2.1.rowsInserted + st2.2.length }

/-- `range(0, n, bs)` slicing for a positive step, with fuel for
termination (the fuel `xs.length` suffices whenever `bs ≥ 1`). -/
def chunksGo (bs : Nat) : Nat → List ShapeletRecord → List (List ShapeletRecord)
  | _, [] => []
  | 0, _ => []
  | fuel + 1, x :: xs => (x :: xs).take bs :: chunksGo bs fuel ((x :: xs).drop bs)

/-- `records[start : start + batch_size]` for `start in range(0, len, bs)`. -/
def chunksOf (bs : Nat) (xs : List ShapeletRecord) : List (List ShapeletRecord) :=
  chunksGo bs xs.length xs

/-- `helpers/db.py` `insert_shapelets`: partition into batches, process each,
return `(rows_inserted, store)`.  A zero `batch_size` is `range`'s
`ValueError`; a negative one makes `range` empty, so nothing is processed. -/
def insert_shapelets (db : Db) (records : List ShapeletRecord)
    (batch_size : Int) : Except Err (Nat × Db) :=
  if batch_size = 0 then .error (.valueError "range() arg 3 must not be zero")
  else
    let chunks := if batch_size < 0 then [] else chunksOf batch_size.toNat records
    let final := chunks.foldl processChunk ⟨db, [], [], 0⟩
    .ok (final.rowsInserted, final.db)

/-! ## Pipeline Orchestrator (`main.py` `run`)

Input files are modelled by their filename plus the outcome of
`load_from_path`: `none` models a load failure (the `except Exception`
branch), `some data` the loaded container. -/

/-- One discovered input file. -/
structure PFile where
  name : String
  content : Option Container

/-- The per-file loop of `main.run`, threading the counters and the store.
Filename-parse failures and load failures are caught, counted and skipped;
an empty container raises `IndexError` at `list(data.keys())[0]`; an error
raised while listing `iter_records` propagates (there is no handler around
step 4). -/
def processFiles (db : Db) (dryRun : Bool) (tv te : Nat) :
    List PFile → Except Err (Nat × Nat × Db)
  | [] => .ok (tv, te, db)
  | f :: rest =>
    match parse_filename f.name with
    | none => processFiles db dryRun tv (te + 1) rest
    | some _ =>
      match f.content with
      | none => processFiles db dryRun tv (te + 1) rest
      | some data =>
        if data.isEmpty then .error .indexError
        else do
          let records ← listIterRecords data (some f.name)
          let parted := records.partition (fun r => (validate_record r.toDict).1)
          let db' ←
            if !dryRun && !parted.1.isEmpty then do
              let (_, db') ← insert_shapelets db parted.1 500
              pure db'
            else pure db
          processFiles db' dryRun (tv + parted.1.length) (te + parted.2.length) rest

/-- The final run summary printed / written to `ingestion_runs` by
`main.run` (the status is always `"completed"`). -/
structure RunOutcome where
  totalFiles : Nat
  totalValid : Nat
  totalErrors : Nat
  status : String
  db : Db

/-- `main.run` from file discovery onward: drive the per-file loop and close
the audit row with the aggregate counters. -/
def runPipeline (files : List PFile) (dryRun : Bool) (db : Db) :
    Except Err RunOutcome := do
  let (tv, te, db') ← processFiles db dryRun 0 0 files
  pure ⟨files.length, tv, te, "completed", db'⟩

/-! ## Helper lemmas -/

/-- `find?` returns the first element satisfying the predicate. -/
theorem find?_first {α : Type} {p : α → Bool} {l : List α} {a : α}
    (h : l.find? p = some a) :
    p a = true ∧ ∃ i, l[i]? = some a ∧
      ∀ (j : Nat) (u : α), j < i → l[j]? = some u → p u = false := by
  induction l with
  | nil => simp [List.find?] at h
  | cons b l ih =>
    rw [List.find?] at h
    by_cases hb : p b = true
    · rw [hb] at h
      simp only [Option.some.injEq] at h
      subst h
      exact ⟨hb, 0, by simp, fun j u hj => by omega⟩
    · rw [Bool.not_eq_true] at hb
      rw [hb] at h
      obtain ⟨hpa, i, hi, hfirst⟩ := ih h
      refine ⟨hpa, i + 1, by simpa using hi, fun j u hj hu => ?_⟩
      match j with
      | 0 => simp only [List.getElem?_cons_zero, Option.some.injEq] at hu; subst hu; exact hb
      | j + 1 =>
        exact hfirst j u (by omega) (by simpa using hu)

/-! ## C7: pollutant-code extraction -/

/-- C7: for every string `pattern_type`, `_extract_param_code` returns the
first underscore-delimited token that is purely numeric (nonempty, all
digits), and returns `None` exactly when no token is numeric. -/
theorem extract_param_code_first_numeric (s : String) :
    (∀ t, extract_param_code s = some t →
      (!t.isEmpty && t.data.all Char.isDigit) = true ∧
      ∃ i, (splitUnderscore s)[i]? = some t ∧
        ∀ (j : Nat) (u : String), j < i → (splitUnderscore s)[j]? = some u →
          (!u.isEmpty && u.data.all Char.isDigit) = false) ∧
    (extract_param_code s = none →
      ∀ t ∈ splitUnderscore s, (!t.isEmpty && t.data.all Char.isDigit) = false) := by
  constructor
  · intro t ht
    exact find?_first ht
  · intro hnone t hmem
    rw [extract_param_code, List.find?_eq_none] at hnone
    simpa using hnone t hmem

/-- C7 witness: extraction from `"daily_42401"` yields `"42401"`, the first
purely numeric token. -/
theorem extract_param_code_first_numeric_witness :
    extract_param_code "daily_42401" = some "42401" ∧
    ((!"42401".isEmpty && "42401".data.all Char.isDigit) = true ∧
      ∃ i, (splitUnderscore "daily_42401")[i]? = some "42401" ∧
        ∀ (j : Nat) (u : String), j < i → (splitUnderscore "daily_42401")[j]? = some u →
          (!u.isEmpty && u.data.all Char.isDigit) = false) :=
  ⟨by decide, (extract_param_code_first_numeric "daily_42401").1 "42401" (by decide)⟩

/-! ## C4: `insert_shapelets` returns the attempted row count -/

theorem chunksGo_flatten {bs : Nat} (hbs : 1 ≤ bs) :
    ∀ (fuel : Nat) (xs : List ShapeletRecord), xs.length ≤ fuel →
      (chunksGo bs fuel xs).flatten = xs := by
  intro fuel
  induction fuel with
  | zero =>
    intro xs hl
    match xs with
    | [] => rfl
    | x :: xs => simp at hl
  | succ fuel ih =>
    intro xs hl
    match xs with
    | [] => rfl
    | x :: xs =>
      rw [chunksGo, List.flatten_cons, ih ((x :: xs).drop bs)
        (by rw [List.length_drop]; simp only [List.length_cons] at hl ⊢; omega)]
      exact List.take_append_drop bs (x :: xs)

theorem chunksOf_flatten {bs : Nat} (hbs : 1 ≤ bs) (xs : List ShapeletRecord) :
    (chunksOf bs xs).flatten = xs :=
  chunksGo_flatten hbs xs.length xs le_rfl

theorem upsert_site_shapelets (db : Db) (rec : ShapeletRecord) :
    ((upsert_site db rec).1).shapelets = db.shapelets := by
  simp only [upsert_site]
  split <;> rfl

theorem upsert_pollutant_shapelets (db : Db) (c : Option String) :
    (upsert_pollutant db c).shapelets = db.shapelets := by
  unfold upsert_pollutant
  match c with
  | none => rfl
  | some c => dsimp only; split <;> rfl

theorem siteUpsertStep_rowsInserted (s : InsertState) (rec : ShapeletRecord) :
    (siteUpsertStep s rec).rowsInserted = s.rowsInserted := by
  simp only [siteUpsertStep]
  split <;> rfl

theorem siteUpsertStep_shapelets (s : InsertState) (rec : ShapeletRecord) :
    (siteUpsertStep s rec).db.shapelets = s.db.shapelets := by
  simp only [siteUpsertStep]
  split
  · rfl
  · exact upsert_site_shapelets s.db rec

theorem foldl_siteUpsert_inv (chunk : List ShapeletRecord) :
    ∀ s : InsertState,
      (chunk.foldl siteUpsertStep s).rowsInserted = s.rowsInserted ∧
      (chunk.foldl siteUpsertStep s).db.shapelets = s.db.shapelets := by
  induction chunk with
  | nil => exact fun s => ⟨rfl, rfl⟩
  | cons r rest ih =>
    intro s
    rw [List.foldl_cons]
    exact ⟨by rw [(ih _).1, siteUpsertStep_rowsInserted],
           by rw [(ih _).2, siteUpsertStep_shapelets]⟩

theorem pollutantRowStep_fst_rowsInserted (p : InsertState × List ShapeletRow)
    (rec : ShapeletRecord) :
    ((pollutantRowStep p rec).1).rowsInserted = p.1.rowsInserted := by
  unfold pollutantRowStep
  match extract_param_code rec.pattern_type with
  | none => rfl
  | some c => dsimp only; split <;> rfl

theorem pollutantRowStep_fst_shapelets (p : InsertState × List ShapeletRow)
    (rec : ShapeletRecord) :
    ((pollutantRowStep p rec).1).db.shapelets = p.1.db.shapelets := by
  unfold pollutantRowStep
  match extract_param_code rec.pattern_type with
  | none => rfl
  | some c =>
    dsimp only
    split
    · rfl
    · exact upsert_pollutant_shapelets p.1.db (some c)

theorem pollutantRowStep_snd (p : InsertState × List ShapeletRow)
    (rec : ShapeletRecord) :
    (pollutantRowStep p rec).2 = p.2 ++ [shapeletRowOf rec] := rfl

theorem foldl_pollutantRow_inv (chunk : List ShapeletRecord) :
    ∀ p : InsertState × List ShapeletRow,
      (chunk.foldl pollutantRowStep p).1.rowsInserted = p.1.rowsInserted ∧
      (chunk.foldl pollutantRowStep p).1.db.shapelets = p.1.db.shapelets ∧
      (chunk.foldl pollutantRowStep p).2 = p.2 ++ chunk.map shapeletRowOf := by
  induction chunk with
  | nil => exact fun p => ⟨rfl, rfl, by simp⟩
  | cons r rest ih =>
    intro p
    rw [List.foldl_cons]
    refine ⟨?_, ?_, ?_⟩
    · rw [(ih _).1, pollutantRowStep_fst_rowsInserted]
    · rw [(ih _).2.1, pollutantRowStep_fst_shapelets]
    · rw [(ih _).2.2, pollutantRowStep_snd]
      simp

theorem processChunk_rowsInserted (st : InsertState) (chunk : List ShapeletRecord) :
    (processChunk st chunk).rowsInserted = st.rowsInserted + chunk.length := by
  dsimp only [processChunk]
  rw [(foldl_pollutantRow_inv chunk _).1, (foldl_siteUpsert_inv chunk st).1,
      (foldl_pollutantRow_inv chunk _).2.2]
  simp

theorem processChunk_shapelets (st : InsertState) (chunk : List ShapeletRecord) :
    (processChunk st chunk).db.shapelets =
      insertRows st.db.shapelets (chunk.map shapeletRowOf) := by
  dsimp only [processChunk]
  rw [(foldl_pollutantRow_inv chunk _).2.1, (foldl_siteUpsert_inv chunk st).2,
      (foldl_pollutantRow_inv chunk _).2.2]
  simp

theorem foldl_processChunk_rowsInserted (chunks : List (List ShapeletRecord)) :
    ∀ st : InsertState,
      (chunks.foldl processChunk st).rowsInserted =
        st.rowsInserted + chunks.flatten.length := by
  induction chunks with
  | nil => intro st; simp
  | cons c cs ih =>
    intro st
    rw [List.foldl_cons, ih, processChunk_rowsInserted]
    simp [Nat.add_assoc]

theorem foldl_processChunk_shapelets (chunks : List (List ShapeletRecord)) :
    ∀ st : InsertState,
      (chunks.foldl processChunk st).db.shapelets =
        insertRows st.db.shapelets (chunks.flatten.map shapeletRowOf) := by
  induction chunks with
  | nil => intro st; simp [insertRows]
  | cons c cs ih =>
    intro st
    rw [List.foldl_cons, ih, processChunk_shapelets]
    simp [insertRows, List.foldl_append]

/-- C4: for every record list and positive batch size, `insert_shapelets`
returns the number of rows attempted — the length of its input — regardless
of how many rows the `INSERT OR IGNORE` actually added (so the returned
count can overstate the rows newly inserted). -/
theorem insert_shapelets_returns_attempted (db : Db)
    (records : List ShapeletRecord) (batch_size : Int) (hbs : 0 < batch_size) :
    ∃ db2, insert_shapelets db records batch_size = .ok (records.length, db2) := by
  refine ⟨((chunksOf batch_size.toNat records).foldl processChunk ⟨db, [], [], 0⟩).db, ?_⟩
  have h0 : ¬ batch_size = 0 := by omega
  have h1 : ¬ batch_size < 0 := by omega
  simp only [insert_shapelets, if_neg h0, if_neg h1]
  rw [foldl_processChunk_rowsInserted]
  rw [chunksOf_flatten (by omega) records]
  simp

/-- A concrete valid record used by the store-writer witnesses. -/
def sampleRecord : ShapeletRecord :=
  { dataset_key := "Texas_Harris_48_daily_42401_7d_2010_daily_zscore"
    shapelet_id := 0
    source_file := some "Texas_Harris_48_shapelets.pkl_2010_001.pkl"
    state := "Texas"
    county := "Harris"
    site_num := 48
    latitude := 29
    longitude := -95
    location := ""
    year := 2010
    start_date := ⟨2010, 1, 1⟩
    end_date := ⟨2010, 1, 7⟩
    length_days := 7
    pattern_type := "daily_42401"
    data_type := "daily_zscore"
    quality := 1
    shapelet_values := [.vFloat 1, .vFloat 2, .vFloat 3] }

/-- The empty store. -/
def emptyDb : Db := ⟨[], [], []⟩

/-- C4 witness: inserting one record with the default batch size 500
reports one attempted row. -/
theorem insert_shapelets_returns_attempted_witness :
    (0 : Int) < 500 ∧
      ∃ db2, insert_shapelets emptyDb [sampleRecord] 500 = .ok (1, db2) :=
  ⟨by decide, insert_shapelets_returns_attempted emptyDb [sampleRecord] 500 (by decide)⟩

/-! ## C3: ingestion is idempotent per file -/

theorem rowConflict_iff (a b : ShapeletRow) :
    rowConflict a b = true ↔
      a.dataset_key = b.dataset_key ∧ a.shapelet_id = b.shapelet_id ∧
        ∃ s, a.source_file = some s ∧ b.source_file = some s := by
  unfold rowConflict
  rcases ha : a.source_file with _ | x <;> rcases hb : b.source_file with _ | y
  · simp
  · simp
  · simp
  · constructor
    · intro h
      simp only [Bool.and_eq_true, beq_iff_eq] at h
      exact ⟨h.1.1, h.1.2, x, rfl, by rw [h.2]⟩
    · rintro ⟨h1, h2, s, hs1, hs2⟩
      obtain rfl : x = s := Option.some.inj hs1
      obtain rfl : y = x := Option.some.inj hs2
      simp [Bool.and_eq_true, beq_iff_eq, h1, h2]

theorem rowConflict_symm (a b : ShapeletRow) :
    rowConflict a b = rowConflict b a := by
  by_cases h : rowConflict a b = true
  · obtain ⟨h1, h2, s, hs1, hs2⟩ := (rowConflict_iff a b).mp h
    rw [h, ((rowConflict_iff b a).mpr ⟨h1.symm, h2.symm, s, hs2, hs1⟩)]
  · rw [Bool.not_eq_true] at h
    rw [h]
    by_contra hba
    rw [eq_comm, Bool.not_eq_false] at hba
    obtain ⟨h1, h2, s, hs1, hs2⟩ := (rowConflict_iff b a).mp hba
    exact absurd ((rowConflict_iff a b).mpr ⟨h1.symm, h2.symm, s, hs2, hs1⟩)
      (by rw [h]; exact Bool.false_ne_true)

theorem rowConflict_self {row : ShapeletRow} (h : row.source_file ≠ none) :
    rowConflict row row = true := by
  rcases hs : row.source_file with _ | s
  · exact absurd hs h
  · exact (rowConflict_iff row row).mpr ⟨rfl, rfl, s, hs, hs⟩

theorem insertRows_cons (tbl : List ShapeletRow) (r : ShapeletRow)
    (rs : List ShapeletRow) :
    insertRows tbl (r :: rs) = insertRows (insertIgnore tbl r) rs := rfl

theorem mem_insertIgnore {tbl : List ShapeletRow} {row x : ShapeletRow}
    (hx : x ∈ tbl) : x ∈ insertIgnore tbl row := by
  unfold insertIgnore
  split
  · exact hx
  · exact List.mem_append_left _ hx

theorem mem_insertRows {x : ShapeletRow} (rows : List ShapeletRow) :
    ∀ tbl, x ∈ tbl → x ∈ insertRows tbl rows := by
  induction rows with
  | nil => exact fun tbl hx => hx
  | cons r rs ih => exact fun tbl hx => ih _ (mem_insertIgnore hx)

theorem conflict_present_after_insertRows (rows : List ShapeletRow) :
    ∀ tbl, ∀ row ∈ rows, row.source_file ≠ none →
      ∃ x ∈ insertRows tbl rows, rowConflict row x = true := by
  induction rows with
  | nil => intro tbl row h; simp at h
  | cons r rs ih =>
    intro tbl row hmem hsf
    rcases List.mem_cons.mp hmem with rfl | hmem'
    · rw [insertRows_cons]
      by_cases hc : (tbl.any fun old => rowConflict row old) = true
      · obtain ⟨x, hx, hcx⟩ := List.any_eq_true.mp hc
        exact ⟨x, mem_insertRows rs _ (mem_insertIgnore hx), hcx⟩
      · have : insertIgnore tbl row = tbl ++ [row] := by
          unfold insertIgnore
          rw [if_neg hc]
        refine ⟨row, mem_insertRows rs _ ?_, rowConflict_self hsf⟩
        rw [this]
        exact List.mem_append_right _ (List.mem_singleton.mpr rfl)
    · exact ih (insertIgnore tbl r) row hmem' hsf

theorem insertRows_no_new (rows : List ShapeletRow) :
    ∀ tbl, (∀ row ∈ rows, ∃ x ∈ tbl, rowConflict row x = true) →
      insertRows tbl rows = tbl := by
  induction rows with
  | nil => intro tbl _; rfl
  | cons r rs ih =>
    intro tbl h
    obtain ⟨x, hx, hcx⟩ := h r (List.mem_cons_self r rs)
    have heq : insertIgnore tbl r = tbl := by
      unfold insertIgnore
      rw [if_pos (List.any_eq_true.mpr ⟨x, hx, hcx⟩)]
    rw [insertRows_cons, heq]
    exact ih tbl (fun row hm => h row (List.mem_cons_of_mem r hm))

theorem insertIgnore_pairwise {tbl : List ShapeletRow} {row : ShapeletRow}
    (h : List.Pairwise (fun a b => rowConflict a b = false) tbl) :
    List.Pairwise (fun a b => rowConflict a b = false) (insertIgnore tbl row) := by
  unfold insertIgnore
  split
  · exact h
  · rename_i hany
    rw [List.pairwise_append]
    refine ⟨h, List.pairwise_singleton _ _, ?_⟩
    intro x hx y hy
    rw [List.mem_singleton] at hy
    rw [hy]
    have hall : ∀ z ∈ tbl, rowConflict row z = false := by
      intro z hz
      rw [← Bool.not_eq_true]
      exact fun hc => hany (List.any_eq_true.mpr ⟨z, hz, hc⟩)
    rw [rowConflict_symm]
    exact hall x hx

theorem insertRows_pairwise (rows : List ShapeletRow) :
    ∀ tbl, List.Pairwise (fun a b => rowConflict a b = false) tbl →
      List.Pairwise (fun a b => rowConflict a b = false) (insertRows tbl rows) := by
  induction rows with
  | nil => exact fun tbl h => h
  | cons r rs ih => exact fun tbl h => ih _ (insertIgnore_pairwise h)

/-- `insert_shapelets` under a positive batch size: the call succeeds with
the attempted count, and the `shapelets` table becomes the `INSERT OR
IGNORE` of the records' rows in order. -/
theorem insert_shapelets_ok (db : Db) (records : List ShapeletRecord)
    (batch_size : Int) (hbs : 0 < batch_size) :
    ∃ db', insert_shapelets db records batch_size = .ok (records.length, db') ∧
      db'.shapelets = insertRows db.shapelets (records.map shapeletRowOf) := by
  have h0 : ¬ batch_size = 0 := by omega
  have h1 : ¬ batch_size < 0 := by omega
  refine ⟨((chunksOf batch_size.toNat records).foldl processChunk ⟨db, [], [], 0⟩).db,
    ?_, ?_⟩
  · simp only [insert_shapelets, if_neg h0, if_neg h1]
    rw [foldl_processChunk_rowsInserted, chunksOf_flatten (by omega) records]
    simp
  · rw [foldl_processChunk_shapelets, chunksOf_flatten (by omega) records]

/-- C3: ingesting the same record list twice is idempotent: for every store
whose `shapelets` table respects the natural-key uniqueness and every record
list whose `source_file` values are non-null, the second `insert_shapelets`
call leaves the `shapelets` table exactly as the first call left it (so the
row count is unchanged), the second call reports success rather than an
error, and the table after the first call still holds no two rows that
conflict on `(dataset_key, shapelet_id, source_file)`. -/
theorem insert_shapelets_idempotent (db : Db) (records : List ShapeletRecord)
    (batch_size : Int) (hbs : 0 < batch_size)
    (hsf : ∀ r ∈ records, r.source_file ≠ none)
    (hnd : List.Pairwise (fun a b => rowConflict a b = false) db.shapelets) :
    ∃ db1 db2,
      insert_shapelets db records batch_size = .ok (records.length, db1) ∧
      insert_shapelets db1 records batch_size = .ok (records.length, db2) ∧
      db2.shapelets = db1.shapelets ∧
      List.Pairwise (fun a b => rowConflict a b = false) db1.shapelets := by
  obtain ⟨db1, h1, hs1⟩ := insert_shapelets_ok db records batch_size hbs
  obtain ⟨db2, h2, hs2⟩ := insert_shapelets_ok db1 records batch_size hbs
  have hsf' : ∀ row ∈ records.map shapeletRowOf, row.source_file ≠ none := by
    intro row hrow
    obtain ⟨r, hr, rfl⟩ := List.mem_map.mp hrow
    exact hsf r hr
  refine ⟨db1, db2, h1, h2, ?_, ?_⟩
  · have hconf : ∀ row ∈ records.map shapeletRowOf,
        ∃ x ∈ db1.shapelets, rowConflict row x = true := by
      intro row hrow
      have h := conflict_present_after_insertRows (records.map shapeletRowOf)
        db.shapelets row hrow (hsf' row hrow)
      rw [← hs1] at h
      exact h
    rw [hs2]
    exact insertRows_no_new _ _ hconf
  · rw [hs1]
    exact insertRows_pairwise _ _ hnd

/-- C3 witness: one record with a non-null `source_file`, inserted twice
into the empty store with batch size 1. -/
theorem insert_shapelets_idempotent_witness :
    ∃ db1 db2,
      insert_shapelets emptyDb [sampleRecord] 1 = .ok (1, db1) ∧
      insert_shapelets db1 [sampleRecord] 1 = .ok (1, db2) ∧
      db2.shapelets = db1.shapelets ∧
      List.Pairwise (fun a b => rowConflict a b = false) db1.shapelets :=
  insert_shapelets_idempotent emptyDb [sampleRecord] 1 (by decide)
    (by intro r hr; rw [List.mem_singleton] at hr; subst hr; decide)
    List.Pairwise.nil

/-! ## String machinery for reasoning about validator messages -/

/-- Two character lists disagree at some common position. -/
def clashAt : List Char → List Char → Bool
  | c :: p, d :: q => c != d || clashAt p q
  | _, _ => false

theorem ne_append_of_clashAt :
    ∀ {p q : List Char}, clashAt p q = true → ∀ a b : List Char, p ++ a ≠ q ++ b := by
  intro p
  induction p with
  | nil => intro q h a b; cases q <;> simp [clashAt] at h
  | cons c p ih =>
    intro q h a b
    match q with
    | [] => simp [clashAt] at h
    | d :: q =>
      simp only [clashAt, Bool.or_eq_true, bne_iff_ne] at h
      intro heq
      simp only [List.cons_append, List.cons.injEq] at heq
      rcases h with hcd | hclash
      · exact hcd heq.1
      · exact ih hclash a b heq.2

/-- Strings with clashing prefixes stay different under any suffixes. -/
theorem strNe_of_clash {p q : String} (h : clashAt p.data q.data = true)
    (a b : String) : p ++ a ≠ q ++ b := by
  intro heq
  have hd := congrArg String.data heq
  rw [String.data_append, String.data_append] at hd
  exact ne_append_of_clashAt h a.data b.data hd

theorem strEq_of_data {s t : String} (h : s.data = t.data) : s = t := by
  cases s
  cases t
  exact congrArg String.mk h

theorem strAppend_left_cancel {s a b : String} (h : s ++ a = s ++ b) : a = b := by
  have hd := congrArg String.data h
  rw [String.data_append, String.data_append] at hd
  exact strEq_of_data (List.append_cancel_left hd)

theorem strApp_data_ne_nil {s : String} (t : String) (h : s.data ≠ []) :
    (s ++ t).data ≠ [] := by
  rw [String.data_append]
  exact fun hc => h (List.append_eq_nil.mp hc).1

theorem strApp_head {s : String} (t : String) (h : s.data ≠ []) :
    (s ++ t).data.head? = s.data.head? := by
  rw [String.data_append]
  match hs : s.data with
  | [] => exact absurd hs h
  | c :: cs => simp

/-! ## Shape of the validator's error messages -/

theorem validate_record_snd (record : PyDict) :
    (validate_record record).2 =
      missingFieldErrors record ++ typeCheckErrors record ++ domainCheckErrors record := rfl

theorem validate_record_fst (record : PyDict) :
    (validate_record record).1 =
      (missingFieldErrors record ++ typeCheckErrors record ++
        domainCheckErrors record).isEmpty := rfl

/-- Every schema field name is nonempty and does not start with `'m'` (no
message other than a missing-field message can start with `'m'`). -/
theorem schema_field_facts :
    ∀ ft ∈ SCHEMA, ft.1.data ≠ [] ∧ ft.1.data.head? ≠ some 'm' := by decide

/-- The schema field names are distinct. -/
theorem schema_names_nodup : (SCHEMA.map (fun ft => ft.1)).Nodup := by decide

theorem mem_missingFieldErrors {r : PyDict} {m : String}
    (hm : m ∈ missingFieldErrors r) :
    ∃ ft ∈ SCHEMA, m = "missing required field: " ++ ft.1 ∧
      ft.2.2 = true ∧ pyLookup r ft.1 = none := by
  unfold missingFieldErrors at hm
  obtain ⟨l, hl, hml⟩ := List.mem_flatten.mp hm
  obtain ⟨ft, hft, rfl⟩ := List.mem_map.mp hl
  by_cases hc : (ft.2.2 && (pyLookup r ft.1).isNone) = true
  · rw [if_pos hc, List.mem_singleton] at hml
    rw [Bool.and_eq_true, Option.isNone_iff_eq_none] at hc
    exact ⟨ft, hft, hml, hc.1, hc.2⟩
  · rw [if_neg hc] at hml
    simp at hml

theorem mem_typeCheckErrors {r : PyDict} {m : String}
    (hm : m ∈ typeCheckErrors r) :
    ∃ ft ∈ SCHEMA, ∃ v : PyVal,
      m = ft.1 ++ ": expected " ++ typeLabel ft.2.1 ++ ", got " ++ typeName v := by
  unfold typeCheckErrors at hm
  obtain ⟨l, hl, hml⟩ := List.mem_flatten.mp hm
  obtain ⟨ft, hft, rfl⟩ := List.mem_map.mp hl
  rcases hlk : pyLookup r ft.1 with _ | v <;> simp only [hlk] at hml
  · simp at hml
  · split at hml
    · simp at hml
    · split at hml
      · simp at hml
      · rw [List.mem_singleton] at hml
        exact ⟨ft, hft, v, hml⟩

theorem mem_yearDomainErrors {r : PyDict} {m : String}
    (hm : m ∈ yearDomainErrors r) :
    ∃ y : Int, m = "year out of range: " ++ toString y := by
  unfold yearDomainErrors at hm
  rcases h : (pyLookup r "year").bind asIntVal with _ | y <;> simp only [h] at hm
  · simp at hm
  · split at hm
    · simp at hm
    · rw [List.mem_singleton] at hm
      exact ⟨y, hm⟩

theorem mem_lengthDomainErrors {r : PyDict} {m : String}
    (hm : m ∈ lengthDomainErrors r) :
    ∃ n : Int, m = "length_days must be >= 1, got " ++ toString n := by
  unfold lengthDomainErrors at hm
  rcases h : (pyLookup r "length_days").bind asIntVal with _ | n <;> simp only [h] at hm
  · simp at hm
  · split at hm
    · rw [List.mem_singleton] at hm
      exact ⟨n, hm⟩
    · simp at hm

theorem mem_latitudeDomainErrors {r : PyDict} {m : String}
    (hm : m ∈ latitudeDomainErrors r) :
    ∃ q : ℚ, m = "latitude out of range: " ++ ratRepr q := by
  unfold latitudeDomainErrors at hm
  rcases h : (pyLookup r "latitude").bind asFloatVal with _ | q <;> simp only [h] at hm
  · simp at hm
  · split at hm
    · simp at hm
    · rw [List.mem_singleton] at hm
      exact ⟨q, hm⟩

theorem mem_longitudeDomainErrors {r : PyDict} {m : String}
    (hm : m ∈ longitudeDomainErrors r) :
    ∃ q : ℚ, m = "longitude out of range: " ++ ratRepr q := by
  unfold longitudeDomainErrors at hm
  rcases h : (pyLookup r "longitude").bind asFloatVal with _ | q <;> simp only [h] at hm
  · simp at hm
  · split at hm
    · simp at hm
    · rw [List.mem_singleton] at hm
      exact ⟨q, hm⟩

theorem mem_dateOrderDomainErrors {r : PyDict} {m : String}
    (hm : m ∈ dateOrderDomainErrors r) :
    m = "end_date is before start_date" := by
  unfold dateOrderDomainErrors at hm
  rcases h1 : (pyLookup r "start_date").bind asDateVal with _ | sd <;>
    rcases h2 : (pyLookup r "end_date").bind asDateVal with _ | ed <;>
      simp only [h1, h2] at hm
  · simp at hm
  · simp at hm
  · simp at hm
  · split at hm
    · rw [List.mem_singleton] at hm
      exact hm
    · simp at hm

theorem mem_valuesDomainErrors {r : PyDict} {m : String}
    (hm : m ∈ valuesDomainErrors r) :
    m = "shapelet_values is empty" := by
  unfold valuesDomainErrors at hm
  rcases h : pyLookup r "shapelet_values" with _ | v
  · simp only [h] at hm
    simp at hm
  · rcases v with _ | s | n | q | d | d2 | xs | n2 | q2 | qs <;> simp only [h] at hm
    · simp at hm
    · simp at hm
    · simp at hm
    · simp at hm
    · simp at hm
    · simp at hm
    · split at hm
      · rw [List.mem_singleton] at hm
        exact hm
      · simp at hm
    · simp at hm
    · simp at hm
    · simp at hm

theorem mem_domainCheckErrors {r : PyDict} {m : String}
    (hm : m ∈ domainCheckErrors r) :
    (∃ y : Int, m = "year out of range: " ++ toString y) ∨
    (∃ n : Int, m = "length_days must be >= 1, got " ++ toString n) ∨
    (∃ q : ℚ, m = "latitude out of range: " ++ ratRepr q) ∨
    (∃ q : ℚ, m = "longitude out of range: " ++ ratRepr q) ∨
    m = "end_date is before start_date" ∨
    m = "shapelet_values is empty" := by
  unfold domainCheckErrors at hm
  rcases List.mem_append.mp hm with hm | hm
  rcases List.mem_append.mp hm with hm | hm
  rcases List.mem_append.mp hm with hm | hm
  rcases List.mem_append.mp hm with hm | hm
  rcases List.mem_append.mp hm with hm | hm
  · exact Or.inl (mem_yearDomainErrors hm)
  · exact Or.inr (Or.inl (mem_lengthDomainErrors hm))
  · exact Or.inr (Or.inr (Or.inl (mem_latitudeDomainErrors hm)))
  · exact Or.inr (Or.inr (Or.inr (Or.inl (mem_longitudeDomainErrors hm))))
  · exact Or.inr (Or.inr (Or.inr (Or.inr (Or.inl (mem_dateOrderDomainErrors hm)))))
  · exact Or.inr (Or.inr (Or.inr (Or.inr (Or.inr (mem_valuesDomainErrors hm)))))

/-! ## C2 and C10: the normalizer's records against the validator -/

/-- Inverting a successful `_flatten_shapelet`: the record's provenance is
the `source_file` argument and its `location` is the str of the raw dict's
`location` value, defaulted to the empty string. -/
theorem flattenShapelet_fields {dk : String} {raw : PyDict} {sf : Option String}
    {r : ShapeletRecord} (hok : flattenShapelet dk raw sf = .ok r) :
    r.source_file = sf ∧
      r.location = pyStr ((pyLookup raw "location").getD (.vStr "")) := by
  simp only [flattenShapelet, bind, Except.bind, pure, Except.pure] at hok
  repeat' split at hok
  all_goals first
    | exact (Except.noConfusion hok)
    | (injection hok with h; subst h; exact ⟨rfl, rfl⟩)

theorem missingFieldErrors_toDict (r : ShapeletRecord) :
    missingFieldErrors r.toDict = [] := by
  simp [missingFieldErrors, SCHEMA, ShapeletRecord.toDict, pyLookup]

theorem typeCheckErrors_toDict (r : ShapeletRecord) :
    typeCheckErrors r.toDict = [] := by
  rcases hsf : r.source_file with _ | s <;>
    simp [typeCheckErrors, SCHEMA, ShapeletRecord.toDict, pyLookup, optStrVal, hsf,
      isinstanceOf, isNoneVal]

theorem domainCheckErrors_toDict (r : ShapeletRecord)
    (h1 : 1900 ≤ r.year) (h2 : r.year ≤ 2100) (h3 : 1 ≤ r.length_days)
    (h4 : -90 ≤ r.latitude) (h5 : r.latitude ≤ 90)
    (h6 : -180 ≤ r.longitude) (h7 : r.longitude ≤ 180)
    (h8 : r.end_date.ltb r.start_date = false)
    (h9 : r.shapelet_values ≠ []) :
    domainCheckErrors r.toDict = [] := by
  have hy : yearDomainErrors r.toDict = [] := by
    have hl : pyLookup r.toDict "year" = some (.vInt r.year) := rfl
    unfold yearDomainErrors
    rw [hl]
    simp [asIntVal, h1, h2]
  have hld : lengthDomainErrors r.toDict = [] := by
    have hl : pyLookup r.toDict "length_days" = some (.vInt r.length_days) := rfl
    unfold lengthDomainErrors
    rw [hl]
    simp [asIntVal]
    omega
  have hla : latitudeDomainErrors r.toDict = [] := by
    have hl : pyLookup r.toDict "latitude" = some (.vFloat r.latitude) := rfl
    unfold latitudeDomainErrors
    rw [hl]
    simp [asFloatVal, h4, h5]
  have hlo : longitudeDomainErrors r.toDict = [] := by
    have hl : pyLookup r.toDict "longitude" = some (.vFloat r.longitude) := rfl
    unfold longitudeDomainErrors
    rw [hl]
    simp [asFloatVal, h6, h7]
  have hdt : dateOrderDomainErrors r.toDict = [] := by
    have hl1 : pyLookup r.toDict "start_date" = some (.vDate r.start_date) := rfl
    have hl2 : pyLookup r.toDict "end_date" = some (.vDate r.end_date) := rfl
    unfold dateOrderDomainErrors
    rw [hl1, hl2]
    simp [asDateVal, h8]
  have hv : valuesDomainErrors r.toDict = [] := by
    have hl : pyLookup r.toDict "shapelet_values" = some (.vList r.shapelet_values) := rfl
    unfold valuesDomainErrors
    rw [hl]
    simp [List.length_eq_zero, h9]
  unfold domainCheckErrors
  rw [hy, hld, hla, hlo, hdt, hv]
  rfl

/-- C2: for every shapelet dictionary the normalizer accepts (all expected
raw fields present and coercible) whose coerced record satisfies the §4.3
domain constraints, running the validator on the flattened record yields a
pass verdict with an empty violation list. -/
theorem normalize_then_validate_pass (dk : String) (raw : PyDict)
    (sf : Option String) (r : ShapeletRecord)
    (_hok : flattenShapelet dk raw sf = .ok r)
    (h1 : 1900 ≤ r.year) (h2 : r.year ≤ 2100) (h3 : 1 ≤ r.length_days)
    (h4 : -90 ≤ r.latitude) (h5 : r.latitude ≤ 90)
    (h6 : -180 ≤ r.longitude) (h7 : r.longitude ≤ 180)
    (h8 : r.end_date.ltb r.start_date = false)
    (h9 : r.shapelet_values ≠ []) :
    validate_record r.toDict = (true, []) := by
  have hm := missingFieldErrors_toDict r
  have ht := typeCheckErrors_toDict r
  have hd := domainCheckErrors_toDict r h1 h2 h3 h4 h5 h6 h7 h8 h9
  simp only [validate_record, hm, ht, hd]
  rfl

/-- A concrete raw shapelet dictionary that flattens to `sampleRecord`. -/
def sampleRaw : PyDict :=
  [("shapelet_id", .vInt 0), ("state", .vStr "Texas"), ("county", .vStr "Harris"),
   ("site_num", .vInt 48), ("latitude", .vFloat 29), ("longitude", .vFloat (-95)),
   ("year", .vInt 2010), ("start_date", .vDate ⟨2010, 1, 1⟩), ("end_date", .vDate ⟨2010, 1, 7⟩),
   ("length_days", .vInt 7), ("pattern_type", .vStr "daily_42401"),
   ("data_type", .vStr "daily_zscore"), ("quality", .vFloat 1),
   ("shapelet", .vNdarray [1, 2, 3])]

/-- C2 witness: normalize-then-validate on a concrete valid shapelet
dictionary passes with no violations. -/
theorem normalize_then_validate_pass_witness :
    flattenShapelet "Texas_Harris_48_daily_42401_7d_2010_daily_zscore" sampleRaw
        (some "Texas_Harris_48_shapelets.pkl_2010_001.pkl") = .ok sampleRecord ∧
    validate_record sampleRecord.toDict = (true, []) := by
  have hflat : flattenShapelet "Texas_Harris_48_daily_42401_7d_2010_daily_zscore"
      sampleRaw (some "Texas_Harris_48_shapelets.pkl_2010_001.pkl") =
      .ok sampleRecord := rfl
  exact ⟨hflat, normalize_then_validate_pass _ _ _ _ hflat (by decide) (by decide)
    (by decide) (by decide) (by decide) (by decide) (by decide) (by decide)
    (by simp [sampleRecord])⟩

/-- C10: every record the normalizer yields carries all seventeen schema
fields — `location` defaults to the empty string when absent from the raw
dict, `source_file` is always present (possibly `None`) — so the validator
can never report a missing-required-field violation on a
normalizer-produced record. -/
theorem normalizer_record_complete (dk : String) (raw : PyDict)
    (sf : Option String) (r : ShapeletRecord)
    (hok : flattenShapelet dk raw sf = .ok r) :
    (∀ ft ∈ SCHEMA, (pyLookup r.toDict ft.1).isSome = true) ∧
    (pyLookup raw "location" = none → r.location = "") ∧
    pyLookup r.toDict "source_file" = some (optStrVal sf) ∧
    (∀ X : String, ("missing required field: " ++ X) ∉ (validate_record r.toDict).2) := by
  obtain ⟨hsf, hloc⟩ := flattenShapelet_fields hok
  refine ⟨?_, ?_, ?_, ?_⟩
  · intro ft hft
    fin_cases hft <;> rfl
  · intro hnone
    rw [hloc, hnone]
    rfl
  · have h : pyLookup r.toDict "source_file" = some (optStrVal r.source_file) := rfl
    rw [h, hsf]
  · intro X hmem
    rw [validate_record_snd] at hmem
    rcases List.mem_append.mp hmem with h | h
    rcases List.mem_append.mp h with h | h
    · rw [missingFieldErrors_toDict] at h
      exact absurd h (List.not_mem_nil _)
    · obtain ⟨ft, hft, v, heq⟩ := mem_typeCheckErrors h
      have hhead : ("missing required field: " ++ X).data.head? = some 'm' :=
        strApp_head X (by decide)
      rw [heq] at hhead
      have hft1 := schema_field_facts ft hft
      rw [strApp_head _ (strApp_data_ne_nil _ (strApp_data_ne_nil _
            (strApp_data_ne_nil _ hft1.1))),
          strApp_head _ (strApp_data_ne_nil _ (strApp_data_ne_nil _ hft1.1)),
          strApp_head _ (strApp_data_ne_nil _ hft1.1),
          strApp_head _ hft1.1] at hhead
      exact hft1.2 hhead
    · rcases mem_domainCheckErrors h with ⟨y, heq⟩ | ⟨n, heq⟩ | ⟨q, heq⟩ | ⟨q, heq⟩ | heq | heq
      · exact strNe_of_clash (by decide) X (toString y) heq
      · exact strNe_of_clash (by decide) X (toString n) heq
      · exact strNe_of_clash (by decide) X (ratRepr q) heq
      · exact strNe_of_clash (by decide) X (ratRepr q) heq
      · rw [← String.append_empty "end_date is before start_date"] at heq
        exact strNe_of_clash (by decide) X "" heq
      · rw [← String.append_empty "shapelet_values is empty"] at heq
        exact strNe_of_clash (by decide) X "" heq

/-- C10 witness: the concrete raw dictionary, which lacks `location`,
flattens to a record carrying all seventeen keys with `location = ""`. -/
theorem normalizer_record_complete_witness :
    flattenShapelet "Texas_Harris_48_daily_42401_7d_2010_daily_zscore" sampleRaw
        (some "Texas_Harris_48_shapelets.pkl_2010_001.pkl") = .ok sampleRecord ∧
    pyLookup sampleRaw "location" = none ∧
    ((∀ ft ∈ SCHEMA, (pyLookup sampleRecord.toDict ft.1).isSome = true) ∧
     (pyLookup sampleRaw "location" = none → sampleRecord.location = "") ∧
     pyLookup sampleRecord.toDict "source_file" =
       some (optStrVal (some "Texas_Harris_48_shapelets.pkl_2010_001.pkl")) ∧
     (∀ X : String,
        ("missing required field: " ++ X) ∉ (validate_record sampleRecord.toDict).2)) := by
  have hflat : flattenShapelet "Texas_Harris_48_daily_42401_7d_2010_daily_zscore"
      sampleRaw (some "Texas_Harris_48_shapelets.pkl_2010_001.pkl") =
      .ok sampleRecord := rfl
  exact ⟨hflat, rfl, normalizer_record_complete _ _ _ _ hflat⟩

/-! ## C8: exactly one missing-field violation, accumulated with the rest -/

theorem count_missing_zero (sch : List (String × PyType × Bool)) (r : PyDict)
    (X : String) (hX : ∀ ft ∈ sch, ft.1 ≠ X) :
    ((sch.map (fun ft =>
        if ft.2.2 && (pyLookup r ft.1).isNone then
          ["missing required field: " ++ ft.1]
        else [])).flatten).count ("missing required field: " ++ X) = 0 := by
  induction sch with
  | nil => rfl
  | cons ft rest ih =>
    rw [List.map_cons, List.flatten_cons, List.count_append,
      ih (fun g hg => hX g (List.mem_cons_of_mem ft hg))]
    have hne : ("missing required field: " ++ X) ≠ ("missing required field: " ++ ft.1) := by
      intro h
      exact hX ft (List.mem_cons_self ft rest) (strAppend_left_cancel h).symm
    split
    · rw [List.count_eq_zero.mpr (by rw [List.mem_singleton]; exact hne)]
    · rfl

theorem count_missing_one (sch : List (String × PyType × Bool)) (r : PyDict)
    (X : String) (T : PyType)
    (hnd : (sch.map (fun ft => ft.1)).Nodup)
    (hmem : (X, T, true) ∈ sch) (hlook : pyLookup r X = none) :
    ((sch.map (fun ft =>
        if ft.2.2 && (pyLookup r ft.1).isNone then
          ["missing required field: " ++ ft.1]
        else [])).flatten).count ("missing required field: " ++ X) = 1 := by
  induction sch with
  | nil => cases hmem
  | cons ft rest ih =>
    rw [List.map_cons] at hnd
    have hnd' := List.nodup_cons.mp hnd
    rw [List.map_cons, List.flatten_cons, List.count_append]
    rcases List.mem_cons.mp hmem with heq | hmem'
    · have hft1 : ft.1 = X := by rw [← heq]
      have hcond : (ft.2.2 && (pyLookup r ft.1).isNone) = true := by
        rw [← heq]
        simp [hlook]
      rw [if_pos hcond, hft1]
      have hXnotin : ∀ g ∈ rest, g.1 ≠ X := by
        intro g hg hgX
        exact hnd'.1 (by rw [hft1]; exact hgX ▸ List.mem_map_of_mem (fun ft => ft.1) hg)
      rw [count_missing_zero rest r X hXnotin]
      simp
    · have hft1 : ft.1 ≠ X := by
        intro h
        exact hnd'.1
          (h.symm ▸ List.mem_map_of_mem (fun ft => ft.1) hmem')
      rw [ih hnd'.2 hmem']
      have hne : ("missing required field: " ++ X) ≠ ("missing required field: " ++ ft.1) := by
        intro h
        exact hft1 (strAppend_left_cancel h).symm
      split
      · rw [List.count_eq_zero.mpr (by rw [List.mem_singleton]; exact hne)]
      · rfl

/-- The latitude domain piece under a float-typed latitude entry. -/
theorem latitudeDomainErrors_eq {record : PyDict} {la : ℚ}
    (hla : pyLookup record "latitude" = some (.vFloat la)) :
    latitudeDomainErrors record =
      if -90 ≤ la ∧ la ≤ 90 then [] else ["latitude out of range: " ++ ratRepr la] := by
  unfold latitudeDomainErrors
  rw [hla]
  rfl

/-- The longitude domain piece under a float-typed longitude entry. -/
theorem longitudeDomainErrors_eq {record : PyDict} {lo : ℚ}
    (hlo : pyLookup record "longitude" = some (.vFloat lo)) :
    longitudeDomainErrors record =
      if -180 ≤ lo ∧ lo ≤ 180 then [] else ["longitude out of range: " ++ ratRepr lo] := by
  unfold longitudeDomainErrors
  rw [hlo]
  rfl

/-- No type-check message equals a missing-field message (type messages
start with a schema field name, and no schema field starts with `'m'`). -/
theorem missingMsg_not_mem_typeCheck {record : PyDict} {X : String}
    (hmem : ("missing required field: " ++ X) ∈ typeCheckErrors record) : False := by
  obtain ⟨ft, hft, v, heq⟩ := mem_typeCheckErrors hmem
  have hhead : ("missing required field: " ++ X).data.head? = some 'm' :=
    strApp_head X (by decide)
  rw [heq] at hhead
  have hft1 := schema_field_facts ft hft
  rw [strApp_head _ (strApp_data_ne_nil _ (strApp_data_ne_nil _
        (strApp_data_ne_nil _ hft1.1))),
      strApp_head _ (strApp_data_ne_nil _ (strApp_data_ne_nil _ hft1.1)),
      strApp_head _ (strApp_data_ne_nil _ hft1.1),
      strApp_head _ hft1.1] at hhead
  exact hft1.2 hhead

/-- No domain-check message equals a missing-field message. -/
theorem missingMsg_not_mem_domain {record : PyDict} {X : String}
    (hmem : ("missing required field: " ++ X) ∈ domainCheckErrors record) : False := by
  rcases mem_domainCheckErrors hmem with ⟨y, heq⟩ | ⟨n, heq⟩ | ⟨q, heq⟩ | ⟨q, heq⟩ | heq | heq
  · exact strNe_of_clash (by decide) X (toString y) heq
  · exact strNe_of_clash (by decide) X (toString n) heq
  · exact strNe_of_clash (by decide) X (ratRepr q) heq
  · exact strNe_of_clash (by decide) X (ratRepr q) heq
  · rw [← String.append_empty "end_date is before start_date"] at heq
    exact strNe_of_clash (by decide) X "" heq
  · rw [← String.append_empty "shapelet_values is empty"] at heq
    exact strNe_of_clash (by decide) X "" heq

/-- C8: for every record and required field X absent from it, the violation
list contains exactly one `missing required field: X` entry; violations
accumulate without short-circuiting (an independently triggered latitude
domain violation still appears); and the pass verdict is true exactly when
the violation list is empty. -/
theorem validator_reports_missing_field (record : PyDict) (X : String) (T : PyType)
    (hreq : (X, T, true) ∈ SCHEMA) (habs : pyLookup record X = none) :
    (validate_record record).2.count ("missing required field: " ++ X) = 1 ∧
    (∀ q : ℚ, pyLookup record "latitude" = some (.vFloat q) → ¬(-90 ≤ q ∧ q ≤ 90) →
      ("latitude out of range: " ++ ratRepr q) ∈ (validate_record record).2) ∧
    ((validate_record record).1 = true ↔ (validate_record record).2 = []) := by
  refine ⟨?_, ?_, ?_⟩
  · rw [validate_record_snd, List.count_append, List.count_append]
    have hm : (missingFieldErrors record).count ("missing required field: " ++ X) = 1 :=
      count_missing_one SCHEMA record X T schema_names_nodup hreq habs
    have ht : (typeCheckErrors record).count ("missing required field: " ++ X) = 0 :=
      List.count_eq_zero.mpr (fun h => missingMsg_not_mem_typeCheck h)
    have hd : (domainCheckErrors record).count ("missing required field: " ++ X) = 0 :=
      List.count_eq_zero.mpr (fun h => missingMsg_not_mem_domain h)
    rw [hm, ht, hd]
  · intro q hlat hrange
    rw [validate_record_snd]
    refine List.mem_append.mpr (Or.inr ?_)
    unfold domainCheckErrors
    refine List.mem_append.mpr (Or.inl ?_)
    refine List.mem_append.mpr (Or.inl ?_)
    refine List.mem_append.mpr (Or.inl ?_)
    refine List.mem_append.mpr (Or.inr ?_)
    rw [latitudeDomainErrors_eq hlat, if_neg hrange]
    exact List.mem_singleton.mpr rfl
  · rw [validate_record_fst, validate_record_snd]
    exact List.isEmpty_iff

/-- C8 witness: a record with no `year` and an out-of-range latitude gets
exactly one missing-year violation plus the latitude domain violation, and
does not pass. -/
theorem validator_reports_missing_field_witness :
    (validate_record [("latitude", .vFloat 91)]).2.count
        ("missing required field: " ++ "year") = 1 ∧
    (∀ q : ℚ, pyLookup [("latitude", PyVal.vFloat 91)] "latitude" = some (.vFloat q) →
      ¬(-90 ≤ q ∧ q ≤ 90) →
      ("latitude out of range: " ++ ratRepr q) ∈
        (validate_record [("latitude", .vFloat 91)]).2) ∧
    ((validate_record [("latitude", .vFloat 91)]).1 = true ↔
      (validate_record [("latitude", .vFloat 91)]).2 = []) :=
  validator_reports_missing_field [("latitude", .vFloat 91)] "year" .tInt
    (by decide) rfl

/-! ## C9: latitude/longitude range checks are inclusive at the endpoints -/

/-- C9: for records whose latitude and longitude are present with float
type, the latitude range message appears among the violations exactly when
the latitude lies outside `[-90, 90]`, and likewise for the longitude and
`[-180, 180]` — so the interval endpoints themselves produce no violation
and any value beyond them does. -/
theorem validator_latlon_inclusive (record : PyDict) (la lo : ℚ)
    (hla : pyLookup record "latitude" = some (.vFloat la))
    (hlo : pyLookup record "longitude" = some (.vFloat lo)) :
    (("latitude out of range: " ++ ratRepr la) ∈ (validate_record record).2 ↔
      ¬(-90 ≤ la ∧ la ≤ 90)) ∧
    (("longitude out of range: " ++ ratRepr lo) ∈ (validate_record record).2 ↔
      ¬(-180 ≤ lo ∧ lo ≤ 180)) := by
  constructor
  · constructor
    · intro hmem
      by_contra hrange
      rw [validate_record_snd] at hmem
      rcases List.mem_append.mp hmem with h | h
      rcases List.mem_append.mp h with h | h
      · obtain ⟨ft, hft, heq, _, _⟩ := mem_missingFieldErrors h
        exact strNe_of_clash (by decide) (ratRepr la) ft.1 heq
      · obtain ⟨ft, hft, v, heq⟩ := mem_typeCheckErrors h
        simp only [SCHEMA, List.mem_cons, List.not_mem_nil, or_false] at hft
        rcases hft with rfl | rfl | rfl | rfl | rfl | rfl | rfl | rfl | rfl | rfl |
          rfl | rfl | rfl | rfl | rfl | rfl | rfl <;>
          exact strNe_of_clash (by decide) _ _ heq
      · unfold domainCheckErrors at h
        rcases List.mem_append.mp h with h | h
        rcases List.mem_append.mp h with h | h
        rcases List.mem_append.mp h with h | h
        rcases List.mem_append.mp h with h | h
        rcases List.mem_append.mp h with h | h
        · obtain ⟨y, heq⟩ := mem_yearDomainErrors h
          exact strNe_of_clash (by decide) _ _ heq
        · obtain ⟨n, heq⟩ := mem_lengthDomainErrors h
          exact strNe_of_clash (by decide) _ _ heq
        · rw [latitudeDomainErrors_eq hla, if_pos hrange] at h
          exact List.not_mem_nil _ h
        · obtain ⟨q, heq⟩ := mem_longitudeDomainErrors h
          exact strNe_of_clash (by decide) _ _ heq
        · have heq := mem_dateOrderDomainErrors h
          rw [← String.append_empty "end_date is before start_date"] at heq
          exact strNe_of_clash (by decide) _ _ heq
        · have heq := mem_valuesDomainErrors h
          rw [← String.append_empty "shapelet_values is empty"] at heq
          exact strNe_of_clash (by decide) _ _ heq
    · intro hrange
      rw [validate_record_snd]
      refine List.mem_append.mpr (Or.inr ?_)
      unfold domainCheckErrors
      refine List.mem_append.mpr (Or.inl ?_)
      refine List.mem_append.mpr (Or.inl ?_)
      refine List.mem_append.mpr (Or.inl ?_)
      refine List.mem_append.mpr (Or.inr ?_)
      rw [latitudeDomainErrors_eq hla, if_neg hrange]
      exact List.mem_singleton.mpr rfl
  · constructor
    · intro hmem
      by_contra hrange
      rw [validate_record_snd] at hmem
      rcases List.mem_append.mp hmem with h | h
      rcases List.mem_append.mp h with h | h
      · obtain ⟨ft, hft, heq, _, _⟩ := mem_missingFieldErrors h
        exact strNe_of_clash (by decide) (ratRepr lo) ft.1 heq
      · obtain ⟨ft, hft, v, heq⟩ := mem_typeCheckErrors h
        simp only [SCHEMA, List.mem_cons, List.not_mem_nil, or_false] at hft
        rcases hft with rfl | rfl | rfl | rfl | rfl | rfl | rfl | rfl | rfl | rfl |
          rfl | rfl | rfl | rfl | rfl | rfl | rfl <;>
          exact strNe_of_clash (by decide) _ _ heq
      · unfold domainCheckErrors at h
        rcases List.mem_append.mp h with h | h
        rcases List.mem_append.mp h with h | h
        rcases List.mem_append.mp h with h | h
        rcases List.mem_append.mp h with h | h
        rcases List.mem_append.mp h with h | h
        · obtain ⟨y, heq⟩ := mem_yearDomainErrors h
          exact strNe_of_clash (by decide) _ _ heq
        · obtain ⟨n, heq⟩ := mem_lengthDomainErrors h
          exact strNe_of_clash (by decide) _ _ heq
        · obtain ⟨q, heq⟩ := mem_latitudeDomainErrors h
          exact strNe_of_clash (by decide) _ _ heq
        · rw [longitudeDomainErrors_eq hlo, if_pos hrange] at h
          exact List.not_mem_nil _ h
        · have heq := mem_dateOrderDomainErrors h
          rw [← String.append_empty "end_date is before start_date"] at heq
          exact strNe_of_clash (by decide) _ _ heq
        · have heq := mem_valuesDomainErrors h
          rw [← String.append_empty "shapelet_values is empty"] at heq
          exact strNe_of_clash (by decide) _ _ heq
    · intro hrange
      rw [validate_record_snd]
      refine List.mem_append.mpr (Or.inr ?_)
      unfold domainCheckErrors
      refine List.mem_append.mpr (Or.inl ?_)
      refine List.mem_append.mpr (Or.inl ?_)
      refine List.mem_append.mpr (Or.inr ?_)
      rw [longitudeDomainErrors_eq hlo, if_neg hrange]
      exact List.mem_singleton.mpr rfl

/-- C9 witness: latitude exactly `±90` and longitude exactly `±180` pass
the range checks, while `90.0001` and `180.0001` (as exact rationals — the
corresponding floats also lie strictly beyond the bounds) fail them. -/
theorem validator_latlon_inclusive_witness :
    (("latitude out of range: " ++ ratRepr 90) ∉
      (validate_record [("latitude", .vFloat 90), ("longitude", .vFloat 180)]).2) ∧
    (("longitude out of range: " ++ ratRepr 180) ∉
      (validate_record [("latitude", .vFloat 90), ("longitude", .vFloat 180)]).2) ∧
    (("latitude out of range: " ++ ratRepr (-90)) ∉
      (validate_record [("latitude", .vFloat (-90)), ("longitude", .vFloat (-180))]).2) ∧
    (("longitude out of range: " ++ ratRepr (-180)) ∉
      (validate_record [("latitude", .vFloat (-90)), ("longitude", .vFloat (-180))]).2) ∧
    (("latitude out of range: " ++ ratRepr (900001 / 10000)) ∈
      (validate_record [("latitude", .vFloat (900001 / 10000)),
        ("longitude", .vFloat (1800001 / 10000))]).2) ∧
    (("longitude out of range: " ++ ratRepr (1800001 / 10000)) ∈
      (validate_record [("latitude", .vFloat (900001 / 10000)),
        ("longitude", .vFloat (1800001 / 10000))]).2) := by
  refine ⟨?_, ?_, ?_, ?_, ?_, ?_⟩
  · exact fun h =>
      ((validator_latlon_inclusive [("latitude", PyVal.vFloat 90), ("longitude", PyVal.vFloat 180)] 90 180 rfl rfl).1.mp h) (by norm_num)
  · exact fun h =>
      ((validator_latlon_inclusive [("latitude", PyVal.vFloat 90), ("longitude", PyVal.vFloat 180)] 90 180 rfl rfl).2.mp h) (by norm_num)
  · exact fun h =>
      ((validator_latlon_inclusive [("latitude", PyVal.vFloat (-90)), ("longitude", PyVal.vFloat (-180))] (-90) (-180) rfl rfl).1.mp h) (by norm_num)
  · exact fun h =>
      ((validator_latlon_inclusive [("latitude", PyVal.vFloat (-90)), ("longitude", PyVal.vFloat (-180))] (-90) (-180) rfl rfl).2.mp h) (by norm_num)
  · exact (validator_latlon_inclusive [("latitude", PyVal.vFloat (900001 / 10000)), ("longitude", PyVal.vFloat (1800001 / 10000))] (900001 / 10000) (1800001 / 10000)
      rfl rfl).1.mpr (by norm_num)
  · exact (validator_latlon_inclusive [("latitude", PyVal.vFloat (900001 / 10000)), ("longitude", PyVal.vFloat (1800001 / 10000))] (900001 / 10000) (1800001 / 10000)
      rfl rfl).2.mpr (by norm_num)

/-! ## C5 and C6: the fixed-grammar parsers -/

theorem splitsFrom_spec {cs : List Char} {x : List Char × List Char}
    (hx : x ∈ splitsFrom cs) : cs = x.1 ++ x.2 ∧ x.1 ≠ [] := by
  unfold splitsFrom at hx
  obtain ⟨i, hi, rfl⟩ := List.mem_map.mp hx
  rw [List.mem_range] at hi
  refine ⟨(List.take_append_drop (i + 1) cs).symm, ?_⟩
  intro h
  have hlen := congrArg List.length h
  rw [List.length_take] at hlen
  simp only [List.length_nil] at hlen
  omega

theorem mem_splitsFrom {cs pre suf : List Char} (h : cs = pre ++ suf)
    (hpre : pre ≠ []) : (pre, suf) ∈ splitsFrom cs := by
  unfold splitsFrom
  have hlen : 1 ≤ pre.length := by
    cases pre
    · exact absurd rfl hpre
    · simp
  refine List.mem_map.mpr ⟨pre.length - 1, ?_, ?_⟩
  · rw [List.mem_range]
    subst h
    rw [List.length_append]
    omega
  · have h1 : pre.length - 1 + 1 = pre.length := by omega
    subst h
    rw [h1, List.take_left, List.drop_left]

theorem findSome?_ne_none_of_mem {α β : Type} {f : α → Option β} {l : List α}
    {x : α} (hx : x ∈ l) (hfx : f x ≠ none) : l.findSome? f ≠ none := by
  intro hnone
  rw [List.findSome?_eq_none_iff] at hnone
  exact hfx (hnone x hx)

theorem stripLit_sound : ∀ {lit cs rest : List Char},
    stripLit lit cs = some rest → cs = lit ++ rest := by
  intro lit
  induction lit with
  | nil =>
    intro cs rest h
    unfold stripLit at h
    rw [List.nil_append]
    exact Option.some.inj h
  | cons l ls ih =>
    intro cs rest h
    match cs with
    | [] => exact absurd h (by simp [stripLit])
    | c :: cs' =>
      unfold stripLit at h
      split at h
      · rename_i hcl
        rw [List.cons_append, ← hcl]
        exact congrArg (c :: ·) (ih h)
      · exact absurd h (by simp)

theorem stripLit_complete : ∀ (lit rest : List Char),
    stripLit lit (lit ++ rest) = some rest := by
  intro lit
  induction lit with
  | nil => intro rest; rfl
  | cons l ls ih =>
    intro rest
    simp [stripLit, ih]

theorem takeExactDigits_sound {n : Nat} {cs y rest : List Char}
    (h : takeExactDigits n cs = some (y, rest)) :
    cs = y ++ rest ∧ y.length = n ∧ y.all Char.isDigit = true := by
  unfold takeExactDigits at h
  split at h
  · rename_i hcond
    injection h with h
    have h1 : cs.take n = y := congrArg Prod.fst h
    have h2 : cs.drop n = rest := congrArg Prod.snd h
    subst h1
    subst h2
    exact ⟨(List.take_append_drop n cs).symm, hcond.1, hcond.2⟩
  · exact absurd h (by simp)

theorem takeExactDigits_complete {n : Nat} {y rest : List Char}
    (hy : y.length = n) (hd : y.all Char.isDigit = true) :
    takeExactDigits n (y ++ rest) = some (y, rest) := by
  unfold takeExactDigits
  subst hy
  rw [List.take_left, List.drop_left, if_pos ⟨rfl, hd⟩]

theorem stripLit_self (lit : List Char) : stripLit lit lit = some [] := by
  have h := stripLit_complete lit []
  rwa [List.append_nil] at h

theorem takeWhile_digits_append {d : List Char} {c : Char} {r : List Char}
    (hd : d.all Char.isDigit = true) (hc : c.isDigit = false) :
    (d ++ c :: r).takeWhile Char.isDigit = d ∧
      (d ++ c :: r).dropWhile Char.isDigit = c :: r := by
  induction d with
  | nil =>
    rw [List.nil_append]
    constructor
    · rw [List.takeWhile_cons, hc]
      rfl
    · rw [List.dropWhile_cons, hc]
      rfl
  | cons a d ih =>
    rw [List.all_cons, Bool.and_eq_true] at hd
    obtain ⟨ih1, ih2⟩ := ih hd.2
    constructor
    · rw [List.cons_append, List.takeWhile_cons, hd.1, ih1]
      rw [if_pos rfl]
    · rw [List.cons_append, List.dropWhile_cons, hd.1, ih2]
      rw [if_pos rfl]

/-- The filename grammar as a decomposition predicate: the tokens of
`{State}_{County}_{SiteNum}_shapelets.pkl_{Year}_{Chunk}.pkl` with their
character classes. -/
def FilenameDecomp (name : String) (m : FileMeta) : Prop :=
  ∃ st co sn y ch : List Char,
    name.data = st ++ '_' :: (co ++ '_' ::
      (sn ++ ("_shapelets.pkl_".data ++ (y ++ '_' :: (ch ++ ".pkl".data))))) ∧
    st ≠ [] ∧ st.all isDotChar = true ∧
    co ≠ [] ∧ co.all isAlphaSpace = true ∧
    sn ≠ [] ∧ sn.all Char.isDigit = true ∧
    y.length = 4 ∧ y.all Char.isDigit = true ∧
    ch.length = 3 ∧ ch.all Char.isDigit = true ∧
    m.state = ⟨st⟩ ∧ m.county = ⟨co⟩ ∧
    m.site_num = digitsToNat sn ∧ m.year = digitsToNat y ∧ m.chunk = digitsToNat ch

/-- A filename matches the grammar when some decomposition exists. -/
def MatchesFilenameGrammar (name : String) : Prop :=
  ∃ m : FileMeta, FilenameDecomp name m

theorem matchFilenameTail_sound {cs : List Char} {t : Nat × Nat × Nat}
    (h : matchFilenameTail cs = some t) :
    ∃ sn y ch : List Char,
      cs = sn ++ ("_shapelets.pkl_".data ++ (y ++ '_' :: (ch ++ ".pkl".data))) ∧
      sn ≠ [] ∧ sn.all Char.isDigit = true ∧
      y.length = 4 ∧ y.all Char.isDigit = true ∧
      ch.length = 3 ∧ ch.all Char.isDigit = true ∧
      t = (digitsToNat sn, digitsToNat y, digitsToNat ch) := by
  unfold matchFilenameTail at h
  simp only [List.span_eq_take_drop] at h
  split at h
  · exact absurd h (by simp)
  · rename_i hsn
    rcases hstrip : stripLit "_shapelets.pkl_".data (cs.dropWhile Char.isDigit)
        with _ | r2 <;> simp only [hstrip] at h
    · exact absurd h (by simp)
    · rcases htake : takeExactDigits 4 r2 with _ | ⟨y, r3⟩ <;>
        simp only [htake] at h
      · exact absurd h (by simp)
      · match r3, htake, h with
        | [], htake, h => exact absurd h (by simp)
        | c :: r4, htake, h => ?_
        by_cases hc : c = '_'
        · subst hc
          simp only [] at h
          rcases htake3 : takeExactDigits 3 r4 with _ | ⟨ch, r5⟩ <;>
            simp only [htake3] at h
          · exact absurd h (by simp)
          · rcases hstrip2 : stripLit ".pkl".data r5 with _ | r6 <;>
              simp only [hstrip2] at h
            · exact absurd h (by simp)
            · match r6, hstrip2, h with
              | _ :: _, hstrip2, h => exact absurd h (by simp)
              | [], hstrip2, h => ?_
              injection h with h
              obtain ⟨he2, hy4, hyd⟩ := takeExactDigits_sound htake
              obtain ⟨he3, hch3, hchd⟩ := takeExactDigits_sound htake3
              have he4 := stripLit_sound hstrip2
              refine ⟨cs.takeWhile Char.isDigit, y, ch,
                ?_, ?_, List.all_takeWhile, hy4, hyd, hch3, hchd, h.symm⟩
              · conv_lhs => rw [← List.takeWhile_append_dropWhile (p := Char.isDigit) (l := cs)]
                rw [stripLit_sound hstrip, he2, he3, he4]
                simp
              · exact hsn
        · exact absurd h (by simp [hc])

theorem matchFilenameTail_complete {sn y ch : List Char}
    (hsn1 : sn ≠ []) (hsn2 : sn.all Char.isDigit = true)
    (hy1 : y.length = 4) (hy2 : y.all Char.isDigit = true)
    (hch1 : ch.length = 3) (hch2 : ch.all Char.isDigit = true) :
    matchFilenameTail
        (sn ++ ("_shapelets.pkl_".data ++ (y ++ '_' :: (ch ++ ".pkl".data)))) =
      some (digitsToNat sn, digitsToNat y, digitsToNat ch) := by
  unfold matchFilenameTail
  simp only [List.span_eq_take_drop]
  have hsplit : sn ++ ("_shapelets.pkl_".data ++ (y ++ '_' :: (ch ++ ".pkl".data))) =
      sn ++ '_' :: ("shapelets.pkl_".data ++ (y ++ '_' :: (ch ++ ".pkl".data))) := by
    simp
  obtain ⟨ht, hd⟩ := takeWhile_digits_append (c := '_')
    (r := "shapelets.pkl_".data ++ (y ++ '_' :: (ch ++ ".pkl".data))) hsn2 (by decide)
  rw [hsplit, ht, hd, if_neg hsn1]
  have hlit : ('_' : Char) :: ("shapelets.pkl_".data ++ (y ++ '_' :: (ch ++ ".pkl".data))) =
      "_shapelets.pkl_".data ++ (y ++ '_' :: (ch ++ ".pkl".data)) := by
    simp
  rw [hlit]
  simp only [stripLit_complete, takeExactDigits_complete hy1 hy2,
    takeExactDigits_complete hch1 hch2, stripLit_self]

/-- C6: `parse_filename` is sound and complete for the filename grammar
`{State}_{County}_{SiteNum}_shapelets.pkl_{Year}_{Chunk}.pkl`: a successful
parse decomposes the filename into tokens of the right character classes
with state/county as strings and site_num/year/chunk as the decimal values
of their digit groups, and a `PatternMismatch` failure (`none`) happens
exactly on filenames admitting no such decomposition. -/
theorem parse_filename_correct (name : String) :
    (∀ m, parse_filename name = some m → FilenameDecomp name m) ∧
    (parse_filename name = none → ¬ MatchesFilenameGrammar name) := by
  constructor
  · intro m hm
    unfold parse_filename at hm
    obtain ⟨x, hx, hfx⟩ := List.exists_of_findSome?_eq_some hm
    obtain ⟨heq1, hne1⟩ := splitsFrom_spec hx
    unfold fnOuter at hfx
    split at hfx
    · rename_i hdot
      split at hfx
      · rename_i rest1 heq2
        obtain ⟨x2, hx2, hfx2⟩ := List.exists_of_findSome?_eq_some hfx
        obtain ⟨heq3, hne3⟩ := splitsFrom_spec hx2
        unfold fnInner at hfx2
        split at hfx2
        · rename_i hco
          split at hfx2
          · rename_i rest3 heq4
            rcases hmt : matchFilenameTail rest3 with _ | t
            · rw [hmt] at hfx2
              exact Option.noConfusion hfx2
            · rw [hmt] at hfx2
              obtain ⟨sn, y, ch, hcs, hsn1, hsn2, hy1, hy2, hch1, hch2, ht⟩ :=
                matchFilenameTail_sound hmt
              subst ht
              simp only [Option.map_some'] at hfx2
              have hm' := Option.some.inj hfx2
              subst hm'
              refine ⟨x.1, x2.1, sn, y, ch, ?_, hne1, hdot, hne3, hco,
                hsn1, hsn2, hy1, hy2, hch1, hch2, rfl, rfl, rfl, rfl, rfl⟩
              rw [heq1, heq2, heq3, heq4, hcs]
          · exact Option.noConfusion hfx2
        · exact Option.noConfusion hfx2
      · exact Option.noConfusion hfx
    · exact Option.noConfusion hfx
  · intro hnone hmatch
    obtain ⟨m0, st, co, sn, y, ch, heqd, hst1, hst2, hco1, hco2,
      hsn1, hsn2, hy1, hy2, hch1, hch2, -, -, -, -, -⟩ := hmatch
    unfold parse_filename at hnone
    rw [List.findSome?_eq_none_iff] at hnone
    have hxmem : (st, '_' :: (co ++ '_' ::
        (sn ++ ("_shapelets.pkl_".data ++ (y ++ '_' :: (ch ++ ".pkl".data)))))) ∈
        splitsFrom name.data :=
      mem_splitsFrom heqd hst1
    have h0 := hnone _ hxmem
    unfold fnOuter at h0
    rw [if_pos hst2] at h0
    have h1 : List.findSome? (fnInner st)
        (splitsFrom (co ++ '_' ::
          (sn ++ ("_shapelets.pkl_".data ++ (y ++ '_' :: (ch ++ ".pkl".data)))))) =
        none := h0
    rw [List.findSome?_eq_none_iff] at h1
    have hx2mem : (co, '_' ::
        (sn ++ ("_shapelets.pkl_".data ++ (y ++ '_' :: (ch ++ ".pkl".data))))) ∈
        splitsFrom (co ++ '_' ::
          (sn ++ ("_shapelets.pkl_".data ++ (y ++ '_' :: (ch ++ ".pkl".data))))) :=
      mem_splitsFrom rfl hco1
    have h2 := h1 _ hx2mem
    unfold fnInner at h2
    rw [if_pos hco2] at h2
    have h3 : (matchFilenameTail
        (sn ++ ("_shapelets.pkl_".data ++ (y ++ '_' :: (ch ++ ".pkl".data))))).map
          (fun t => (⟨⟨st⟩, ⟨co⟩, t.1, t.2.1, t.2.2⟩ : FileMeta)) = none := h2
    rw [matchFilenameTail_complete hsn1 hsn2 hy1 hy2 hch1 hch2] at h3
    exact Option.noConfusion h3

/-- C6 witness: the scenario filename parses to
`{state: Texas, county: Harris, site_num: 48, year: 2010, chunk: 1}` and
that result is a grammar decomposition of the filename. -/
theorem parse_filename_correct_witness :
    parse_filename "Texas_Harris_48_shapelets.pkl_2010_001.pkl" =
      some ⟨"Texas", "Harris", 48, 2010, 1⟩ ∧
    FilenameDecomp "Texas_Harris_48_shapelets.pkl_2010_001.pkl"
      ⟨"Texas", "Harris", 48, 2010, 1⟩ := by
  have hp : parse_filename "Texas_Harris_48_shapelets.pkl_2010_001.pkl" =
      some ⟨"Texas", "Harris", 48, 2010, 1⟩ := by decide
  exact ⟨hp, (parse_filename_correct _).1 _ hp⟩

theorem takeWhile_class_append {p : Char → Bool} {d : List Char} {c : Char}
    {r : List Char} (hd : d.all p = true) (hc : p c = false) :
    (d ++ c :: r).takeWhile p = d ∧ (d ++ c :: r).dropWhile p = c :: r := by
  induction d with
  | nil =>
    rw [List.nil_append]
    constructor
    · rw [List.takeWhile_cons, hc]
      rfl
    · rw [List.dropWhile_cons, hc]
      rfl
  | cons a d ih =>
    rw [List.all_cons, Bool.and_eq_true] at hd
    obtain ⟨ih1, ih2⟩ := ih hd.2
    constructor
    · rw [List.cons_append, List.takeWhile_cons, hd.1, ih1, if_pos rfl]
    · rw [List.cons_append, List.dropWhile_cons, hd.1, ih2, if_pos rfl]

/-- The dataset-key grammar as a decomposition predicate: the tokens of
`{State}_{County}_{SiteNum}_{Frequency}_{ParamCode}_{Duration}_{Year}_{AggMethod}`
with their character classes; `agg_method` is the entire remainder after the
year token, unsplit. -/
def KeyDecomp (key : String) (m : KeyMeta) : Prop :=
  ∃ st co sn fr pc du y ag : List Char,
    key.data = st ++ '_' :: (co ++ '_' :: (sn ++ '_' :: (fr ++ '_' ::
      (pc ++ '_' :: (du ++ '_' :: (y ++ '_' :: ag)))))) ∧
    st ≠ [] ∧ st.all isDotChar = true ∧
    co ≠ [] ∧ co.all isAlphaSpace = true ∧
    sn ≠ [] ∧ sn.all Char.isDigit = true ∧
    fr ≠ [] ∧ fr.all Char.isLower = true ∧
    pc ≠ [] ∧ pc.all Char.isDigit = true ∧
    du ≠ [] ∧ du.all isWordChar = true ∧
    y.length = 4 ∧ y.all Char.isDigit = true ∧
    ag ≠ [] ∧ ag.all isDotChar = true ∧
    m.state = ⟨st⟩ ∧ m.county = ⟨co⟩ ∧ m.site_num = digitsToNat sn ∧
    m.frequency = ⟨fr⟩ ∧ m.parameter_code = ⟨pc⟩ ∧ m.duration = ⟨du⟩ ∧
    m.year = digitsToNat y ∧ m.agg_method = ⟨ag⟩

/-- A dataset key matches the grammar when some decomposition exists. -/
def MatchesKeyGrammar (key : String) : Prop :=
  ∃ m : KeyMeta, KeyDecomp key m

theorem matchDuration_sound {cs : List Char} {t : String × Nat × String}
    (h : matchDuration cs = some t) :
    ∃ du y ag : List Char,
      cs = du ++ '_' :: (y ++ '_' :: ag) ∧
      du ≠ [] ∧ du.all isWordChar = true ∧
      y.length = 4 ∧ y.all Char.isDigit = true ∧
      ag ≠ [] ∧ ag.all isDotChar = true ∧
      t = (⟨du⟩, digitsToNat y, ⟨ag⟩) := by
  unfold matchDuration at h
  obtain ⟨x, hx, hfx⟩ := List.exists_of_findSome?_eq_some h
  rw [List.mem_reverse] at hx
  obtain ⟨heq1, hne1⟩ := splitsFrom_spec hx
  unfold duStep at hfx
  split at hfx
  · rename_i hword
    split at hfx
    · rename_i r heq2
      split at hfx
      · rename_i y ag heq3
        split at hfx
        · rename_i hag
          have ht := Option.some.inj hfx
          obtain ⟨hr, hy4, hyd⟩ := takeExactDigits_sound heq3
          exact ⟨x.1, y, ag, by rw [heq1, heq2, hr], hne1, hword, hy4, hyd,
            hag.1, hag.2, ht.symm⟩
        · exact Option.noConfusion hfx
      · exact Option.noConfusion hfx
    · exact Option.noConfusion hfx
  · exact Option.noConfusion hfx

theorem matchDuration_ne_none {du y ag : List Char}
    (hdu1 : du ≠ []) (hdu2 : du.all isWordChar = true)
    (hy1 : y.length = 4) (hy2 : y.all Char.isDigit = true)
    (hag1 : ag ≠ []) (hag2 : ag.all isDotChar = true) :
    matchDuration (du ++ '_' :: (y ++ '_' :: ag)) ≠ none := by
  unfold matchDuration
  apply findSome?_ne_none_of_mem (x := (du, '_' :: (y ++ '_' :: ag)))
  · rw [List.mem_reverse]
    exact mem_splitsFrom rfl hdu1
  · unfold duStep
    rw [if_pos hdu2]
    have h : takeExactDigits 4 (y ++ '_' :: ag) = some (y, '_' :: ag) :=
      takeExactDigits_complete hy1 hy2
    simp [h, hag1, hag2]

theorem matchKeyTail3_sound {sn fr r4 : List Char}
    {t : Nat × String × String × String × Nat × String}
    (h : matchKeyTail3 sn fr r4 = some t) :
    ∃ pc du y ag : List Char,
      r4 = pc ++ '_' :: (du ++ '_' :: (y ++ '_' :: ag)) ∧
      pc ≠ [] ∧ pc.all Char.isDigit = true ∧
      du ≠ [] ∧ du.all isWordChar = true ∧
      y.length = 4 ∧ y.all Char.isDigit = true ∧
      ag ≠ [] ∧ ag.all isDotChar = true ∧
      t = (digitsToNat sn, ⟨fr⟩, ⟨pc⟩, ⟨du⟩, digitsToNat y, ⟨ag⟩) := by
  unfold matchKeyTail3 at h
  simp only [List.span_eq_take_drop] at h
  split at h
  · exact Option.noConfusion h
  · rename_i hpc
    split at h
    · rename_i r6 heq6
      rcases hmd : matchDuration r6 with _ | t' <;> rw [hmd] at h
      · exact Option.noConfusion h
      · obtain ⟨du, y, ag, hr6, hdu1, hdu2, hy1, hy2, hag1, hag2, ht'⟩ :=
          matchDuration_sound hmd
        simp only [Option.map_some'] at h
        have ht := Option.some.inj h
        refine ⟨r4.takeWhile Char.isDigit, du, y, ag, ?_, hpc, List.all_takeWhile,
          hdu1, hdu2, hy1, hy2, hag1, hag2, ?_⟩
        · calc r4 = r4.takeWhile Char.isDigit ++ r4.dropWhile Char.isDigit :=
                (List.takeWhile_append_dropWhile _ _).symm
            _ = r4.takeWhile Char.isDigit ++ '_' :: r6 := by rw [heq6]
            _ = r4.takeWhile Char.isDigit ++ '_' :: (du ++ '_' :: (y ++ '_' :: ag)) := by
                rw [← hr6]
        · rw [← ht, ht']
    · exact Option.noConfusion h

theorem matchKeyTail2_sound {sn r2 : List Char}
    {t : Nat × String × String × String × Nat × String}
    (h : matchKeyTail2 sn r2 = some t) :
    ∃ fr pc du y ag : List Char,
      r2 = fr ++ '_' :: (pc ++ '_' :: (du ++ '_' :: (y ++ '_' :: ag))) ∧
      fr ≠ [] ∧ fr.all Char.isLower = true ∧
      pc ≠ [] ∧ pc.all Char.isDigit = true ∧
      du ≠ [] ∧ du.all isWordChar = true ∧
      y.length = 4 ∧ y.all Char.isDigit = true ∧
      ag ≠ [] ∧ ag.all isDotChar = true ∧
      t = (digitsToNat sn, ⟨fr⟩, ⟨pc⟩, ⟨du⟩, digitsToNat y, ⟨ag⟩) := by
  unfold matchKeyTail2 at h
  simp only [List.span_eq_take_drop] at h
  split at h
  · exact Option.noConfusion h
  · rename_i hfr
    split at h
    · rename_i r4 heq4
      obtain ⟨pc, du, y, ag, hr4, hpc1, hpc2, hdu1, hdu2, hy1, hy2, hag1, hag2, ht⟩ :=
        matchKeyTail3_sound h
      refine ⟨r2.takeWhile Char.isLower, pc, du, y, ag, ?_, hfr,
        List.all_takeWhile, hpc1, hpc2, hdu1, hdu2, hy1, hy2, hag1, hag2, ht⟩
      calc r2 = r2.takeWhile Char.isLower ++ r2.dropWhile Char.isLower :=
            (List.takeWhile_append_dropWhile _ _).symm
        _ = r2.takeWhile Char.isLower ++ '_' :: r4 := by rw [heq4]
        _ = r2.takeWhile Char.isLower ++ '_' ::
              (pc ++ '_' :: (du ++ '_' :: (y ++ '_' :: ag))) := by rw [← hr4]
    · exact Option.noConfusion h

theorem matchKeyTail_sound {cs : List Char}
    {t : Nat × String × String × String × Nat × String}
    (h : matchKeyTail cs = some t) :
    ∃ sn fr pc du y ag : List Char,
      cs = sn ++ '_' :: (fr ++ '_' :: (pc ++ '_' :: (du ++ '_' :: (y ++ '_' :: ag)))) ∧
      sn ≠ [] ∧ sn.all Char.isDigit = true ∧
      fr ≠ [] ∧ fr.all Char.isLower = true ∧
      pc ≠ [] ∧ pc.all Char.isDigit = true ∧
      du ≠ [] ∧ du.all isWordChar = true ∧
      y.length = 4 ∧ y.all Char.isDigit = true ∧
      ag ≠ [] ∧ ag.all isDotChar = true ∧
      t = (digitsToNat sn, ⟨fr⟩, ⟨pc⟩, ⟨du⟩, digitsToNat y, ⟨ag⟩) := by
  unfold matchKeyTail at h
  simp only [List.span_eq_take_drop] at h
  split at h
  · exact Option.noConfusion h
  · rename_i hsn
    split at h
    · rename_i r2 heq2
      obtain ⟨fr, pc, du, y, ag, hr2, hfr1, hfr2, hpc1, hpc2, hdu1, hdu2,
        hy1, hy2, hag1, hag2, ht⟩ := matchKeyTail2_sound h
      refine ⟨cs.takeWhile Char.isDigit, fr, pc, du, y, ag,
        ?_, hsn, List.all_takeWhile, hfr1, hfr2,
        hpc1, hpc2, hdu1, hdu2, hy1, hy2, hag1, hag2, ht⟩
      calc cs = cs.takeWhile Char.isDigit ++ cs.dropWhile Char.isDigit :=
            (List.takeWhile_append_dropWhile _ _).symm
        _ = cs.takeWhile Char.isDigit ++ '_' :: r2 := by rw [heq2]
        _ = cs.takeWhile Char.isDigit ++ '_' ::
              (fr ++ '_' :: (pc ++ '_' :: (du ++ '_' :: (y ++ '_' :: ag)))) := by
            rw [← hr2]
    · exact Option.noConfusion h

theorem matchKeyTail3_ne_none {sn fr pc du y ag : List Char}
    (hpc1 : pc ≠ []) (hpc2 : pc.all Char.isDigit = true)
    (hdu1 : du ≠ []) (hdu2 : du.all isWordChar = true)
    (hy1 : y.length = 4) (hy2 : y.all Char.isDigit = true)
    (hag1 : ag ≠ []) (hag2 : ag.all isDotChar = true) :
    matchKeyTail3 sn fr (pc ++ '_' :: (du ++ '_' :: (y ++ '_' :: ag))) ≠ none := by
  unfold matchKeyTail3
  simp only [List.span_eq_take_drop]
  obtain ⟨ht, hd⟩ := takeWhile_class_append (p := Char.isDigit)
    (c := '_') (r := du ++ '_' :: (y ++ '_' :: ag)) hpc2 (by decide)
  rw [ht, hd, if_neg hpc1]
  intro hcontra
  have hc : ((matchDuration (du ++ '_' :: (y ++ '_' :: ag))).map
      (fun t => (digitsToNat sn, (⟨fr⟩ : String), (⟨pc⟩ : String),
        t.1, t.2.1, t.2.2))) = none := hcontra
  rw [Option.map_eq_none'] at hc
  exact matchDuration_ne_none hdu1 hdu2 hy1 hy2 hag1 hag2 hc

theorem matchKeyTail2_ne_none {sn fr pc du y ag : List Char}
    (hfr1 : fr ≠ []) (hfr2 : fr.all Char.isLower = true)
    (hpc1 : pc ≠ []) (hpc2 : pc.all Char.isDigit = true)
    (hdu1 : du ≠ []) (hdu2 : du.all isWordChar = true)
    (hy1 : y.length = 4) (hy2 : y.all Char.isDigit = true)
    (hag1 : ag ≠ []) (hag2 : ag.all isDotChar = true) :
    matchKeyTail2 sn (fr ++ '_' :: (pc ++ '_' :: (du ++ '_' :: (y ++ '_' :: ag)))) ≠ none := by
  unfold matchKeyTail2
  simp only [List.span_eq_take_drop]
  obtain ⟨ht, hd⟩ := takeWhile_class_append (p := Char.isLower)
    (c := '_') (r := pc ++ '_' :: (du ++ '_' :: (y ++ '_' :: ag))) hfr2 (by decide)
  rw [ht, hd, if_neg hfr1]
  intro hcontra
  have hc : matchKeyTail3 sn fr (pc ++ '_' :: (du ++ '_' :: (y ++ '_' :: ag))) =
      none := hcontra
  exact matchKeyTail3_ne_none hpc1 hpc2 hdu1 hdu2 hy1 hy2 hag1 hag2 hc

theorem matchKeyTail_ne_none {sn fr pc du y ag : List Char}
    (hsn1 : sn ≠ []) (hsn2 : sn.all Char.isDigit = true)
    (hfr1 : fr ≠ []) (hfr2 : fr.all Char.isLower = true)
    (hpc1 : pc ≠ []) (hpc2 : pc.all Char.isDigit = true)
    (hdu1 : du ≠ []) (hdu2 : du.all isWordChar = true)
    (hy1 : y.length = 4) (hy2 : y.all Char.isDigit = true)
    (hag1 : ag ≠ []) (hag2 : ag.all isDotChar = true) :
    matchKeyTail (sn ++ '_' :: (fr ++ '_' ::
      (pc ++ '_' :: (du ++ '_' :: (y ++ '_' :: ag))))) ≠ none := by
  unfold matchKeyTail
  simp only [List.span_eq_take_drop]
  obtain ⟨ht, hd⟩ := takeWhile_class_append (p := Char.isDigit)
    (c := '_') (r := fr ++ '_' :: (pc ++ '_' :: (du ++ '_' :: (y ++ '_' :: ag))))
    hsn2 (by decide)
  rw [ht, hd, if_neg hsn1]
  intro hcontra
  have hc : matchKeyTail2 sn (fr ++ '_' ::
      (pc ++ '_' :: (du ++ '_' :: (y ++ '_' :: ag)))) = none := hcontra
  exact matchKeyTail2_ne_none hfr1 hfr2 hpc1 hpc2 hdu1 hdu2 hy1 hy2 hag1 hag2 hc

/-- C5: `parse_dataset_key` is sound and complete for the eight-token
dataset-key grammar: a successful parse decomposes the key into tokens of
the right classes, extracting state, county, site_num (the decimal value
of its digit group), frequency, parameter_code, duration and year, with
`agg_method` the entire remainder after the year token, unsplit; failure
(`PatternMismatch`) happens exactly on keys admitting no decomposition. -/
theorem parse_dataset_key_correct (key : String) :
    (∀ m, parse_dataset_key key = some m → KeyDecomp key m) ∧
    (parse_dataset_key key = none → ¬ MatchesKeyGrammar key) := by
  constructor
  · intro m hm
    unfold parse_dataset_key at hm
    obtain ⟨x, hx, hfx⟩ := List.exists_of_findSome?_eq_some hm
    obtain ⟨heq1, hne1⟩ := splitsFrom_spec hx
    unfold dkOuter at hfx
    split at hfx
    · rename_i hdot
      split at hfx
      · rename_i rest1 heq2
        obtain ⟨x2, hx2, hfx2⟩ := List.exists_of_findSome?_eq_some hfx
        obtain ⟨heq3, hne3⟩ := splitsFrom_spec hx2
        unfold dkInner at hfx2
        split at hfx2
        · rename_i hco
          split at hfx2
          · rename_i rest3 heq4
            rcases hmt : matchKeyTail rest3 with _ | t
            · rw [hmt] at hfx2
              exact Option.noConfusion hfx2
            · rw [hmt] at hfx2
              obtain ⟨sn, fr, pc, du, y, ag, hcs, hsn1, hsn2, hfr1, hfr2,
                hpc1, hpc2, hdu1, hdu2, hy1, hy2, hag1, hag2, ht⟩ :=
                matchKeyTail_sound hmt
              subst ht
              simp only [Option.map_some'] at hfx2
              have hm' := Option.some.inj hfx2
              subst hm'
              refine ⟨x.1, x2.1, sn, fr, pc, du, y, ag, ?_, hne1, hdot, hne3, hco,
                hsn1, hsn2, hfr1, hfr2, hpc1, hpc2, hdu1, hdu2, hy1, hy2, hag1, hag2,
                rfl, rfl, rfl, rfl, rfl, rfl, rfl, rfl⟩
              rw [heq1, heq2, heq3, heq4, hcs]
          · exact Option.noConfusion hfx2
        · exact Option.noConfusion hfx2
      · exact Option.noConfusion hfx
    · exact Option.noConfusion hfx
  · intro hnone hmatch
    obtain ⟨m0, st, co, sn, fr, pc, du, y, ag, heqd, hst1, hst2, hco1, hco2,
      hsn1, hsn2, hfr1, hfr2, hpc1, hpc2, hdu1, hdu2, hy1, hy2, hag1, hag2,
      -, -, -, -, -, -, -, -⟩ := hmatch
    unfold parse_dataset_key at hnone
    rw [List.findSome?_eq_none_iff] at hnone
    have hxmem : (st, '_' :: (co ++ '_' :: (sn ++ '_' :: (fr ++ '_' ::
        (pc ++ '_' :: (du ++ '_' :: (y ++ '_' :: ag))))))) ∈
        splitsFrom key.data :=
      mem_splitsFrom heqd hst1
    have h0 := hnone _ hxmem
    unfold dkOuter at h0
    rw [if_pos hst2] at h0
    have h1 : List.findSome? (dkInner st)
        (splitsFrom (co ++ '_' :: (sn ++ '_' :: (fr ++ '_' ::
          (pc ++ '_' :: (du ++ '_' :: (y ++ '_' :: ag))))))) = none := h0
    rw [List.findSome?_eq_none_iff] at h1
    have hx2mem : (co, '_' :: (sn ++ '_' :: (fr ++ '_' ::
        (pc ++ '_' :: (du ++ '_' :: (y ++ '_' :: ag)))))) ∈
        splitsFrom (co ++ '_' :: (sn ++ '_' :: (fr ++ '_' ::
          (pc ++ '_' :: (du ++ '_' :: (y ++ '_' :: ag)))))) :=
      mem_splitsFrom rfl hco1
    have h2 := h1 _ hx2mem
    unfold dkInner at h2
    rw [if_pos hco2] at h2
    have h3 : (matchKeyTail (sn ++ '_' :: (fr ++ '_' ::
        (pc ++ '_' :: (du ++ '_' :: (y ++ '_' :: ag)))))).map
          (fun t => (⟨⟨st⟩, ⟨co⟩, t.1, t.2.1, t.2.2.1, t.2.2.2.1,
            t.2.2.2.2.1, t.2.2.2.2.2⟩ : KeyMeta)) = none := h2
    rw [Option.map_eq_none'] at h3
    exact matchKeyTail_ne_none hsn1 hsn2 hfr1 hfr2 hpc1 hpc2 hdu1 hdu2
      hy1 hy2 hag1 hag2 h3

/-- C5 witness: the scenario key parses to frequency `daily`, parameter
code `42401`, duration `7d`, year `2010` and the unsplit agg-method
`daily_zscore`, and that result is a grammar decomposition of the key. -/
theorem parse_dataset_key_correct_witness :
    parse_dataset_key "Texas_Harris_48_daily_42401_7d_2010_daily_zscore" =
      some ⟨"Texas", "Harris", 48, "daily", "42401", "7d", 2010, "daily_zscore"⟩ ∧
    KeyDecomp "Texas_Harris_48_daily_42401_7d_2010_daily_zscore"
      ⟨"Texas", "Harris", 48, "daily", "42401", "7d", 2010, "daily_zscore"⟩ := by
  have hp : parse_dataset_key "Texas_Harris_48_daily_42401_7d_2010_daily_zscore" =
      some ⟨"Texas", "Harris", 48, "daily", "42401", "7d", 2010, "daily_zscore"⟩ := by
    decide
  exact ⟨hp, (parse_dataset_key_correct _).1 _ hp⟩

/-! ## C1: a normalization failure aborts the run

In `main.run`, step 4 (`records = list(iter_records(data, ...))`) is not
wrapped in any `try`/`except`; only the filename parse (step 1) and the
load (step 2) are.  A `KeyError`/`TypeError` raised by `_flatten_shapelet`
therefore propagates out of the orchestrator and aborts the pipeline. -/

/-- A shapelet dict with no `state` key: `_flatten_shapelet` raises
`KeyError('state')` on it. -/
def badRaw : PyDict :=
  [("shapelet_id", .vInt 1), ("county", .vStr "Harris")]

/-- A second input file with one valid shapelet, which the run never
reaches. -/
def cexFile2 : PFile :=
  ⟨"Texas_Harris_48_shapelets.pkl_2010_002.pkl",
   some [("Texas_Harris_48_daily_42401_7d_2010_daily_zscore", [sampleRaw])]⟩

/-- C1 counterexample: a run over two well-named, loadable files, where
the first file's second shapelet lacks its `state` key, terminates with
the uncaught `MissingField` error instead of counting it and moving on —
the remaining shapelet of file one, and all of file two, are never
processed and no run summary is produced. -/
theorem run_aborts_on_missing_field :
    runPipeline
      [⟨"Texas_Harris_48_shapelets.pkl_2010_001.pkl",
        some [("Texas_Harris_48_daily_42401_7d_2010_daily_zscore",
          [sampleRaw, badRaw])]⟩,
       cexFile2] false emptyDb = .error (.missingField "state") := by
  rfl

/-- A file the orchestrator skips with a counter: its name fails the
filename grammar, or it fails to load. -/
def skippableFile (f : PFile) : Prop :=
  parse_filename f.name = none ∨ f.content = none

theorem processFiles_error (pre : List PFile) :
    ∀ (db : Db) (dryRun : Bool) (tv te : Nat),
      (∀ f ∈ pre, skippableFile f) →
      ∀ (name : String) (data : Container) (rest : List PFile) (e : Err),
        (parse_filename name).isSome = true →
        listIterRecords data (some name) = .error e →
        processFiles db dryRun tv te (pre ++ ⟨name, some data⟩ :: rest) = .error e := by
  induction pre with
  | nil =>
    intro db dry tv te _ name data rest e hname herr
    rw [List.nil_append]
    rcases hp : parse_filename name with _ | m
    · rw [hp] at hname
      exact absurd hname (by simp)
    · rcases data with _ | ⟨p0, data'⟩
      · exact absurd herr (by simp [listIterRecords])
      · unfold processFiles
        simp only [hp]
        rw [herr]
        rfl
  | cons f pre ih =>
    intro db dry tv te hpre name data rest e hname herr
    rw [List.cons_append]
    unfold processFiles
    rcases hpre f (List.mem_cons_self f pre) with hbad | hbad
    · simp only [hbad]
      exact ih db dry tv (te + 1) (fun g hg => hpre g (List.mem_cons_of_mem f hg))
        name data rest e hname herr
    · rcases hp : parse_filename f.name with _ | m
      · simp only [hp]
        exact ih db dry tv (te + 1) (fun g hg => hpre g (List.mem_cons_of_mem f hg))
          name data rest e hname herr
      · simp only [hp, hbad]
        exact ih db dry tv (te + 1) (fun g hg => hpre g (List.mem_cons_of_mem f hg))
          name data rest e hname herr

/-- C1 amended: filename-parse failures and load failures are indeed
caught, counted and skipped, but a `MissingField`/`TypeCoercionError`
raised while flattening a loaded container is not caught at the
orchestrator boundary: after any prefix of skippable files, a file whose
container raises during normalization aborts the entire run with that
error, regardless of the remaining files. -/
theorem run_norm_error_aborts (pre : List PFile)
    (hpre : ∀ f ∈ pre, skippableFile f)
    (name : String) (data : Container) (rest : List PFile)
    (dryRun : Bool) (db : Db) (e : Err)
    (hname : (parse_filename name).isSome = true)
    (herr : listIterRecords data (some name) = .error e) :
    runPipeline (pre ++ ⟨name, some data⟩ :: rest) dryRun db = .error e := by
  unfold runPipeline
  rw [processFiles_error pre db dryRun 0 0 hpre name data rest e hname herr]
  rfl

/-- C1 amended-claim witness: one skippable (unloadable) file, then the
file with the bad shapelet, then a healthy file: the run aborts with the
`MissingField` error. -/
theorem run_norm_error_aborts_witness :
    runPipeline
      ([⟨"not-a-shapelet-file", none⟩] ++
        ⟨"Texas_Harris_48_shapelets.pkl_2010_001.pkl",
          some [("Texas_Harris_48_daily_42401_7d_2010_daily_zscore",
            [sampleRaw, badRaw])]⟩ :: [cexFile2]) false emptyDb =
      .error (.missingField "state") :=
  run_norm_error_aborts [⟨"not-a-shapelet-file", none⟩]
    (by
      intro f hf
      rw [List.mem_singleton] at hf
      subst hf
      exact Or.inr rfl)
    "Texas_Harris_48_shapelets.pkl_2010_001.pkl"
    [("Texas_Harris_48_daily_42401_7d_2010_daily_zscore", [sampleRaw, badRaw])]
    [cexFile2] false emptyDb (.missingField "state") (by decide) (by rfl)

end AirPollutant
